import Mathlib

/-!
Verification of the core domain logic of the osu-clone rhythm-game engine.

The TypeScript sources are shallowly embedded: JavaScript numbers are
modelled as rationals (`ℚ`), mutable class state is modelled by explicit
state passing, `Set<string>` bookkeeping becomes `Finset String`, thrown
errors become an `Option String` error component, and `Math.random()`
becomes an explicit stream `ℕ → ℚ` of values together with a cursor.

JavaScript's `Math.sqrt` only ever appears in comparisons of the form
`sqrt s ⋚ bound`; those are embedded by the exact equivalent squared
comparisons (`sqrtLE` / `sqrtGE` below), so no real square root is needed.
`Math.cos` / `Math.sin` / `Math.PI` only produce coordinate values that are
never branched on; they are supplied as an abstract oracle (`MathOracle`).
-/

/-! ## Shared geometry and result types (src/shared/types/game) -/

structure Vec2 where
  x : ℚ
  y : ℚ
deriving DecidableEq, Repr

inductive HitResultType where
  | MISS | BAD | GOOD | GREAT | PERFECT
deriving DecidableEq, Repr

inductive Grade where
  | SS | S | A | B | C | D | F
deriving DecidableEq, Repr

structure HitResult where
  type : HitResultType
  points : ℚ
  accuracy : ℚ
  timestamp : ℚ
deriving DecidableEq, Repr

/-- `sqrtLE s b` embeds the comparison `Math.sqrt s <= b` (for `s ≥ 0`)
    without computing a square root: `b` must be nonnegative and `s ≤ b²`. -/
def sqrtLE (s b : ℚ) : Prop := 0 ≤ b ∧ s ≤ b ^ 2

/-- `sqrtGE s b` embeds the comparison `Math.sqrt s >= b` (for `s ≥ 0`):
    either `b ≤ 0` (a square root is always that large) or `b² ≤ s`. -/
def sqrtGE (s b : ℚ) : Prop := b ≤ 0 ∨ b ^ 2 ≤ s

instance (s b : ℚ) : Decidable (sqrtLE s b) := by unfold sqrtLE; infer_instance
instance (s b : ℚ) : Decidable (sqrtGE s b) := by unfold sqrtGE; infer_instance

/-! ## HitObject / HitCircle (src/domain/entities/HitObject.ts and HitCircle.ts)

The only behaviorally complete hit-object variant is the circle, so the
abstract `HitObject` base class and its single subclass `HitCircle` are
embedded as one structure. The `type` tag (always `CIRCLE`) is omitted.
-/

structure HitCircle where
  id : String
  position : Vec2
  time : ℚ
  approachRate : ℚ
  radius : ℚ
  isHit : Bool
  hitTime : Option ℚ
deriving DecidableEq, Repr

/-- The `HitObject`/`HitCircle` constructor: `radius` is set to the fixed
    `defaultRadius = 54`, `isHit = false`, `hitTime = null`. -/
def mkHitCircle (id : String) (position : Vec2) (time : ℚ) (approachRate : ℚ) : HitCircle :=
  { id := id, position := position, time := time, approachRate := approachRate
    radius := 54, isHit := false, hitTime := none }

namespace HitCircle

/-- `HitObject.isPointInside`: `sqrt (dx² + dy²) <= radius`, in squared form. -/
def isPointInside (c : HitCircle) (point : Vec2) : Prop :=
  sqrtLE ((c.position.x - point.x) * (c.position.x - point.x)
      + (c.position.y - point.y) * (c.position.y - point.y)) c.radius

instance (c : HitCircle) (p : Vec2) : Decidable (c.isPointInside p) := by
  unfold isPointInside; infer_instance

/-- `HitObject.baseEvaluate`: classify `|clickTime - time|` against the
    ascending windows 16 / 64 / 127 / 151 ms. -/
def baseEvaluate (c : HitCircle) (clickTime : ℚ) : HitResultType :=
  let timeDiff := |clickTime - c.time|
  if timeDiff ≤ 16 then .PERFECT
  else if timeDiff ≤ 64 then .GREAT
  else if timeDiff ≤ 127 then .GOOD
  else if timeDiff ≤ 151 then .BAD
  else .MISS

/-- Points awarded per result type (the `switch` in `HitCircle.evaluate`). -/
def pointsFor : HitResultType → ℚ
  | .PERFECT => 300
  | .GREAT => 100
  | .GOOD => 50
  | .BAD => 10
  | .MISS => 0

/-- Accuracy awarded per result type (the `switch` in `HitCircle.evaluate`). -/
def accuracyFor : HitResultType → ℚ
  | .PERFECT => 1
  | .GREAT => 0.66
  | .GOOD => 0.33
  | .BAD => 0.1
  | .MISS => 0

/-- `HitCircle.evaluate`, returning the `HitResult` together with the
    post-call object state (the source mutates `isHit` / `hitTime` in place).
    An out-of-range click returns early with a MISS and touches no state. -/
def evaluate (c : HitCircle) (clickTime : ℚ) (clickPosition : Vec2) :
    HitResult × HitCircle :=
  if ¬ c.isPointInside clickPosition then
    ({ type := .MISS, points := 0, accuracy := 0, timestamp := clickTime }, c)
  else
    let resultType := c.baseEvaluate clickTime
    let c' := { c with isHit := resultType ≠ .MISS, hitTime := some clickTime }
    ({ type := resultType, points := pointsFor resultType
       accuracy := accuracyFor resultType, timestamp := clickTime }, c')

/-- `HitCircle.clone`: a fresh circle at a new position/time; the fresh id uses
    `Date.now()`, which is environmental and is therefore supplied as the
    string argument `nowS`. `radius`, `isHit` and `hitTime` are copied. -/
def clone (c : HitCircle) (newPosition : Vec2) (newTime : ℚ) (nowS : String) : HitCircle :=
  { id := c.id ++ "_clone_" ++ nowS, position := newPosition, time := newTime
    approachRate := c.approachRate, radius := c.radius
    isHit := c.isHit, hitTime := c.hitTime }

end HitCircle

/-! ## Score (src/domain/value-objects/Score.ts)

The `Map<HitResultType, number>` of per-result counters becomes five
natural-number fields.
-/

structure Score where
  points : ℚ
  maxCombo : ℕ
  currentCombo : ℕ
  missCount : ℕ
  badCount : ℕ
  goodCount : ℕ
  greatCount : ℕ
  perfectCount : ℕ
  totalHits : ℕ
  totalPossibleHits : ℕ
deriving DecidableEq, Repr

/-- The `Score` constructor: everything zero except `totalPossibleHits`. -/
def mkScore (totalPossibleHits : ℕ) : Score :=
  { points := 0, maxCombo := 0, currentCombo := 0
    missCount := 0, badCount := 0, goodCount := 0, greatCount := 0, perfectCount := 0
    totalHits := 0, totalPossibleHits := totalPossibleHits }

namespace Score

/-- Bump the per-result-type counter (the `Map.set` in `addResult`). -/
def bump (s : Score) : HitResultType → Score
  | .MISS => { s with missCount := s.missCount + 1 }
  | .BAD => { s with badCount := s.badCount + 1 }
  | .GOOD => { s with goodCount := s.goodCount + 1 }
  | .GREAT => { s with greatCount := s.greatCount + 1 }
  | .PERFECT => { s with perfectCount := s.perfectCount + 1 }

/-- `Score.addResult`: add the points, bump the counter, update the combo
    (reset on MISS, otherwise increment and track the peak), count the hit. -/
def addResult (s : Score) (resultType : HitResultType) (points : ℚ) : Score :=
  let s1 := { s.bump resultType with points := s.points + points }
  let s2 :=
    if resultType = .MISS then { s1 with currentCombo := 0 }
    else
      let cc := s1.currentCombo + 1
      { s1 with currentCombo := cc, maxCombo := max s1.maxCombo cc }
  { s2 with totalHits := s2.totalHits + 1 }

/-- The `accuracy` getter: weighted judgment average, `0` when nothing judged. -/
def accuracy (s : Score) : ℚ :=
  if s.totalHits = 0 then 0
  else ((s.perfectCount : ℚ) * 1.0 + (s.greatCount : ℚ) * 0.66
      + (s.goodCount : ℚ) * 0.33 + (s.badCount : ℚ) * 0.1) / (s.totalHits : ℚ)

/-- `Score.calculateGrade`. `perfectPercentage` divides by `totalHits`; in the
    source this is `NaN` when `totalHits = 0` (here `0`), but in that case
    `accuracy = 0` already fails both guards that read it, so the value is
    never decisive and the grades agree. -/
def calculateGrade (s : Score) : Grade :=
  let accuracy := s.accuracy
  let perfectPercentage := (s.perfectCount : ℚ) / (s.totalHits : ℚ)
  let hasMisses := 0 < s.missCount
  if 1.0 ≤ accuracy then .SS
  else if 0.9 ≤ accuracy ∧ 0.9 ≤ perfectPercentage ∧ ¬ hasMisses then .S
  else if 0.8 ≤ accuracy then .A
  else if 0.7 ≤ accuracy then .B
  else if 0.6 ≤ accuracy then .C
  else if 0.5 ≤ accuracy then .D
  else .F

/-- `Score.getCompletionRate`. -/
def getCompletionRate (s : Score) : ℚ :=
  (s.totalHits : ℚ) / (s.totalPossibleHits : ℚ)

end Score

/-! ## Beatmap (src/domain/entities/Beatmap.ts)

`metadata` and `difficulty` are passive data never read by the verified
operations and are omitted from the aggregate; `BeatmapDifficulty` itself is
defined with the factory below. The constructor sorts the hit objects by
time (here by insertion sort, matching the comparator `a.time - b.time`).
-/

/-- Insert a circle into a time-sorted list (helper for `sortByTime`). -/
def insertByTime (c : HitCircle) : List HitCircle → List HitCircle
  | [] => [c]
  | d :: ds => if c.time ≤ d.time then c :: d :: ds else d :: insertByTime c ds

/-- Sort a list of hit circles ascending by `time`. -/
def sortByTime : List HitCircle → List HitCircle
  | [] => []
  | c :: cs => insertByTime c (sortByTime cs)

structure Beatmap where
  id : String
  hitObjects : List HitCircle
  totalNotes : ℕ
  maxScore : ℚ
  totalLength : ℚ
deriving DecidableEq, Repr

/-- The `Beatmap` constructor: sorts the objects by time and fixes the derived
    fields (`totalNotes` = input length, `maxScore` = 300 per note,
    `totalLength` = last object time + 3000ms, or 0 when empty). -/
def mkBeatmap (id : String) (hitObjects : List HitCircle) : Beatmap :=
  { id := id
    hitObjects := sortByTime hitObjects
    totalNotes := hitObjects.length
    maxScore := (hitObjects.length : ℚ) * 300
    totalLength :=
      match hitObjects.map (·.time) with
      | [] => 0
      | t :: ts => ts.foldl max t + 3000 }

namespace Beatmap

/-- `Beatmap.getHitObjectsInTimeRange`: objects with
    `startTime ≤ time ≤ endTime` (inclusive). -/
def getHitObjectsInTimeRange (b : Beatmap) (startTime endTime : ℚ) : List HitCircle :=
  b.hitObjects.filter (fun obj => decide (startTime ≤ obj.time ∧ obj.time ≤ endTime))

end Beatmap

/-! ## GameSession (src/domain/entities/GameSession.ts) -/

inductive GameState where
  | READY | PLAYING | PAUSED | COMPLETED
deriving DecidableEq, Repr

structure GameSession where
  id : String
  beatmap : Beatmap
  score : Score
  state : GameState
  startTime : Option ℚ
  pausedAt : Option ℚ
  totalPausedTime : ℚ
  processedHitObjects : Finset String
  missedHitObjects : Finset String
deriving DecidableEq

/-- The `GameSession` constructor. -/
def mkGameSession (id : String) (beatmap : Beatmap) : GameSession :=
  { id := id, beatmap := beatmap, score := mkScore beatmap.totalNotes
    state := .READY, startTime := none, pausedAt := none, totalPausedTime := 0
    processedHitObjects := ∅, missedHitObjects := ∅ }

namespace GameSession

/-- `GameSession.start`. The guard `if (this._pausedAt)` in the source is a
    JavaScript truthiness test, so a pause marker equal to `0` is treated as
    absent. A thrown error is the `Option String` component; it occurs before
    any mutation, so the session is returned unchanged alongside it. -/
def start (s : GameSession) (timestamp : ℚ) : Option String × GameSession :=
  if s.state ≠ .READY ∧ s.state ≠ .PAUSED then
    (some "Cannot start game from this state", s)
  else
    let s1 :=
      if s.state = .PAUSED then
        match s.pausedAt with
        | some p =>
          if p ≠ 0 then
            { s with totalPausedTime := s.totalPausedTime + (timestamp - p)
                     pausedAt := none }
          else s
        | none => s
      else { s with startTime := some timestamp }
    (none, { s1 with state := .PLAYING })

/-- `GameSession.pause`. -/
def pause (s : GameSession) (timestamp : ℚ) : Option String × GameSession :=
  if s.state ≠ .PLAYING then
    (some "Cannot pause game from this state", s)
  else
    (none, { s with pausedAt := some timestamp, state := .PAUSED })

/-- `GameSession.end` (named `endSession` here: `end` is a Lean keyword). -/
def endSession (s : GameSession) : GameSession :=
  if s.state = .COMPLETED then s else { s with state := .COMPLETED }

/-- `GameSession.getCurrentTime`. The guard
    `this._state === PAUSED && this._pausedAt` again tests truthiness, so a
    pause marker equal to `0` does not freeze the clock. -/
def getCurrentTime (s : GameSession) (timestamp : ℚ) : ℚ :=
  match s.startTime with
  | none => 0
  | some st =>
    match s.pausedAt with
    | some p =>
      if s.state = .PAUSED ∧ p ≠ 0 then p - st - s.totalPausedTime
      else timestamp - st - s.totalPausedTime
    | none => timestamp - st - s.totalPausedTime

/-- The `reduce` in `processHit`: the object whose time is closest to
    `currentTime`, ties won by the earlier element. -/
def closestTo (currentTime : ℚ) (first : HitCircle) (rest : List HitCircle) : HitCircle :=
  rest.foldl
    (fun closest current =>
      if |current.time - currentTime| < |closest.time - currentTime| then current
      else closest)
    first

/-- `GameSession.processHit`. Only the processed set is consulted when
    collecting candidates (the missed set is not). The `evaluate` call also
    mutates the chosen circle's `isHit`/`hitTime`; those two fields are never
    read again by any session operation, so the stored list is left as is
    (the updated circle is the second component of `evaluate`). -/
def processHit (s : GameSession) (position : Vec2) (timestamp : ℚ) :
    Option HitResult × GameSession :=
  if s.state ≠ .PLAYING then (none, s)
  else
    let currentTime := s.getCurrentTime timestamp
    let hitWindow : ℚ := 200
    let relevantHitObjects :=
      (s.beatmap.getHitObjectsInTimeRange (currentTime - hitWindow) (currentTime + hitWindow)).filter
        (fun obj => decide (obj.id ∉ s.processedHitObjects))
    match relevantHitObjects with
    | [] => (none, s)
    | first :: rest =>
      let closestHitObject := closestTo currentTime first rest
      let result := (closestHitObject.evaluate currentTime position).1
      (some result,
        { s with processedHitObjects := insert closestHitObject.id s.processedHitObjects
                 score := s.score.addResult result.type result.points })

/-- The `for`-loop body of `checkForMissedObjects`: record a MISS and add the
    id to the missed set, for each object of the precomputed list. -/
def missFold (l : List HitCircle) (s : GameSession) : GameSession :=
  l.foldl
    (fun acc missedObj =>
      { acc with score := acc.score.addResult .MISS 0
                 missedHitObjects := insert missedObj.id acc.missedHitObjects })
    s

/-- `GameSession.checkForMissedObjects`. The completion check at the end only
    schedules `end()` on a real-time `setTimeout`; that deferred callback is
    not part of this synchronous step and changes none of the fields below. -/
def checkForMissedObjects (s : GameSession) (timestamp : ℚ) : GameSession :=
  if s.state ≠ .PLAYING then s
  else
    let currentTime := s.getCurrentTime timestamp
    let missWindow : ℚ := 200
    let missedObjects :=
      (s.beatmap.getHitObjectsInTimeRange 0 (currentTime - missWindow)).filter
        (fun obj => decide (obj.id ∉ s.processedHitObjects ∧ obj.id ∉ s.missedHitObjects))
    missFold missedObjects s

end GameSession

/-! ## Session driving: command traces -/

/-- One external call into the session state machine. -/
inductive Cmd where
  | start (t : ℚ)
  | pause (t : ℚ)
  | hit (pos : Vec2) (t : ℚ)
  | check (t : ℚ)
deriving DecidableEq, Repr

/-- Apply one command (errors and returned results are discarded; failed
    commands leave the session unchanged, as proved for C4 below). -/
def stepCmd (s : GameSession) : Cmd → GameSession
  | .start t => (s.start t).2
  | .pause t => (s.pause t).2
  | .hit pos t => (s.processHit pos t).2
  | .check t => s.checkForMissedObjects t

/-- Run a command list left to right. -/
def runCmds (s : GameSession) (cmds : List Cmd) : GameSession :=
  cmds.foldl stepCmd s

/-- Watermark bookkeeping for a trace: the largest session-relative current
    time at which a `checkForMissedObjects` has run while PLAYING
    (`none` while no such sweep has happened). -/
def wmUpd (s : GameSession) (w : Option ℚ) : Cmd → Option ℚ
  | .check t =>
    if s.state = .PLAYING then
      match w with
      | none => some (s.getCurrentTime t)
      | some x => some (max x (s.getCurrentTime t))
    else w
  | _ => w

/-- The strictness condition on a single command: a hit processed while
    PLAYING must happen strictly after the latest miss sweep (in session
    current time). -/
def hitOk (s : GameSession) (w : Option ℚ) : Cmd → Prop
  | .hit _ t => s.state = .PLAYING → ∀ x, w = some x → x < s.getCurrentTime t
  | _ => True

/-- The strictness condition along a whole trace. -/
def traceOk (s : GameSession) (w : Option ℚ) : List Cmd → Prop
  | [] => True
  | c :: cs => hitOk s w c ∧ traceOk (stepCmd s c) (wmUpd s w c) cs

/-! ## BeatmapDifficulty and the factory template (src/domain/services/BeatmapFactory.ts) -/

structure BeatmapDifficulty where
  approachRate : ℚ
  circleSize : ℚ
  overallDifficulty : ℚ
  healthDrain : ℚ
  sliderMultiplier : ℚ
  bpm : ℚ
deriving DecidableEq, Repr

/-- Creation parameters (`BeatmapCreationParams`); the string metadata fields
    are never read by the generation algorithms and are omitted. -/
structure BeatmapCreationParams where
  difficulty : Option ℚ
  duration : ℚ
  bpm : Option ℚ
deriving DecidableEq, Repr

namespace BaseBeatmapFactory

/-- `BaseBeatmapFactory.scaleDifficultyValue`:
    `clamp(1, 10, base * (0.7 + level/10 * 0.8))`. -/
def scaleDifficultyValue (baseValue difficultyLevel : ℚ) : ℚ :=
  let scaleFactor := 0.7 + difficultyLevel / 10 * 0.8
  min 10 (max 1 (baseValue * scaleFactor))

/-- `BaseBeatmapFactory.createDifficulty` (default base values 5, 4, 5, 5). -/
def createDifficulty (difficultyLevel bpm : ℚ) : BeatmapDifficulty :=
  let clampedDifficulty := min 10 (max 1 difficultyLevel)
  { approachRate := scaleDifficultyValue 5 clampedDifficulty
    circleSize := scaleDifficultyValue 4 clampedDifficulty
    overallDifficulty := scaleDifficultyValue 5 clampedDifficulty
    healthDrain := scaleDifficultyValue 5 clampedDifficulty
    sliderMultiplier := 1.0 + clampedDifficulty / 20
    bpm := bpm }

end BaseBeatmapFactory

/-! ## BeatmapPattern (src/domain/value-objects/BeatmapPattern.ts) -/

inductive MirrorAxis where
  | x | y
deriving DecidableEq, Repr

def MirrorAxis.str : MirrorAxis → String
  | .x => "x"
  | .y => "y"

structure BeatmapPattern where
  id : String
  name : String
  hitObjects : List HitCircle
  relativePositions : Bool
  patternDuration : ℚ
  tags : List String
deriving DecidableEq, Repr

namespace BeatmapPattern

/-- `BeatmapPattern.createMirrored`: reflect every object about the chosen
    axis against the playfield size (defaults 512 × 384), cloning each object
    at its own time; fresh id/name/tags mark the mirroring. `nowS` feeds the
    `Date.now()` in `HitCircle.clone`. -/
def createMirrored (p : BeatmapPattern) (axis : MirrorAxis)
    (playfieldWidth playfieldHeight : ℚ) (nowS : String) : BeatmapPattern :=
  let mirroredObjects := p.hitObjects.map (fun obj =>
    let newPosition : Vec2 :=
      match axis with
      | .x => { x := playfieldWidth - obj.position.x, y := obj.position.y }
      | .y => { x := obj.position.x, y := playfieldHeight - obj.position.y }
    obj.clone newPosition obj.time nowS)
  { id := p.id ++ "_mirrored_" ++ axis.str
    name := p.name ++ " (Mirrored " ++ axis.str ++ ")"
    hitObjects := mirroredObjects
    relativePositions := p.relativePositions
    patternDuration := p.patternDuration
    tags := p.tags ++ ["mirrored_" ++ axis.str] }

end BeatmapPattern

/-! ## Procedural generation (StandardBeatmapFactory.ts, TechnicalBeatmapFactory.ts)

`Math.random()` is embedded as a stream `rs : ℕ → ℚ` of values read at an
explicit cursor, so that one consumed value advances the cursor by one.
`Math.cos` / `Math.sin` / `Math.PI` only feed coordinate values that are
never branched on; they are an abstract oracle.
-/

abbrev RandSrc := ℕ → ℚ

structure MathOracle where
  cosO : ℚ → ℚ
  sinO : ℚ → ℚ
  piO : ℚ

/-- `BaseBeatmapFactory.generateRandomPosition` (playfield 512 × 384);
    consumes two random values (x first, then y). -/
def generateRandomPosition (rs : RandSrc) (k : ℕ) (padding : ℚ) : Vec2 × ℕ :=
  (⟨padding + rs k * (512 - 2 * padding), padding + rs (k + 1) * (384 - 2 * padding)⟩,
    k + 2)

/-- The bounded rejection loop of `generateNextPosition`: up to `n` attempts
    to draw a position whose distance from `lastPosition` lies in
    `[minDistance, maxDistance]` (the `Math.sqrt` comparisons in squared
    form); afterwards an unconstrained random position. -/
def genNextPosGo (rs : RandSrc) (lastPosition : Vec2) (minDistance maxDistance : ℚ) :
    ℕ → ℕ → Vec2 × ℕ
  | 0, k => generateRandomPosition rs k 50
  | n + 1, k =>
    let pr := generateRandomPosition rs k 50
    let dx := pr.1.x - lastPosition.x
    let dy := pr.1.y - lastPosition.y
    let distSq := dx * dx + dy * dy
    if sqrtGE distSq minDistance ∧ sqrtLE distSq maxDistance then pr
    else genNextPosGo rs lastPosition minDistance maxDistance n pr.2

/-- `generateNextPosition` (identical in both factories): 10 attempts. -/
def generateNextPosition (rs : RandSrc) (k : ℕ) (lastPosition : Vec2)
    (minDistance maxDistance : ℚ) : Vec2 × ℕ :=
  genNextPosGo rs lastPosition minDistance maxDistance 10 k

/-- Generic fueled while-loop: run `step` while `cond` holds, `none` when the
    fuel runs out. All the generation loops below are instances of it. -/
def fuelLoop {σ : Type} (cond : σ → Prop) [DecidablePred cond] (step : σ → σ) :
    ℕ → σ → Option σ
  | 0, s => if cond s then none else some s
  | fuel + 1, s => if cond s then fuelLoop cond step fuel (step s) else some s

/-- Generic fueled while-loop whose body can itself fail (used for the
    technical factory's outer loop, whose body runs an inner fueled loop). -/
def fuelLoopO {σ : Type} (cond : σ → Prop) [DecidablePred cond] (step : σ → Option σ) :
    ℕ → σ → Option σ
  | 0, s => if cond s then none else some s
  | fuel + 1, s => if cond s then (step s).bind (fuelLoopO cond step fuel) else some s

/-- Loop state carrying a time, a last position, a cursor and the output. -/
structure PosSt where
  t : ℚ
  last : Vec2
  k : ℕ
  acc : List HitCircle

/-- Loop state carrying a time, an arc angle, a cursor and the output. -/
structure AngSt where
  t : ℚ
  angle : ℚ
  k : ℕ
  acc : List HitCircle

/-- Loop state carrying a time, a cursor and the output. -/
structure TimeSt where
  t : ℚ
  k : ℕ
  acc : List HitCircle

/-! ### Standard factory -/

/-- One iteration of `StandardBeatmapFactory.generateHitObjects`'s while-loop:
    place a circle, with probability 0.2 insert an extra half-beat circle
    (splitting the spacing), with probability 0.1 add an extra beat of rest. -/
def stdStep (rs : RandSrc) (spacing minDistance maxDistance approachRate : ℚ)
    (st : PosSt) : PosSt :=
  let pr := generateNextPosition rs st.k st.last minDistance maxDistance
  let c1 := mkHitCircle ("circle_" ++ toString st.t) pr.1 st.t approachRate
  let r1 := rs pr.2
  if r1 < 0.2 then
    let t2 := st.t + spacing / 2
    let pr2 := generateNextPosition rs (pr.2 + 1) pr.1 minDistance maxDistance
    let c2 := mkHitCircle ("circle_" ++ toString t2) pr2.1 t2 approachRate
    let t3 := t2 + spacing / 2
    let r2 := rs pr2.2
    let t4 := if r2 < 0.1 then t3 + spacing else t3
    { t := t4, last := pr2.1, k := pr2.2 + 1, acc := st.acc ++ [c1, c2] }
  else
    let t3 := st.t + spacing
    let r2 := rs (pr.2 + 1)
    let t4 := if r2 < 0.1 then t3 + spacing else t3
    { t := t4, last := pr.1, k := pr.2 + 2, acc := st.acc ++ [c1] }

/-- `StandardBeatmapFactory.generateHitObjects`, with explicit loop fuel.
    `params.difficulty ? params.difficulty / 5 : 1` is a truthiness test, so a
    difficulty of 0 (like an absent one) yields factor 1. -/
def standardGenerateHitObjects (rs : RandSrc) (fuel : ℕ)
    (params : BeatmapCreationParams) (difficulty : BeatmapDifficulty) :
    Option (List HitCircle) :=
  let bpm := difficulty.bpm
  let approachRate := difficulty.approachRate
  let beatDuration := 60000 / bpm
  let totalDuration := params.duration
  let difficultyFactor :=
    match params.difficulty with
    | some d => if d ≠ 0 then d / 5 else 1
    | none => 1
  let baseSpacing := beatDuration
  let spacing := max 150 (baseSpacing / difficultyFactor)
  let minDistance := 50 + difficultyFactor * 30
  let maxDistance := 150 + difficultyFactor * 50
  let pr0 := generateRandomPosition rs 0 50
  (fuelLoop (fun st : PosSt => st.t < totalDuration - 1000)
      (stdStep rs spacing minDistance maxDistance approachRate)
      fuel { t := 1000, last := pr0.1, k := pr0.2, acc := [] }).map (·.acc)

/-! ### Technical factory: the five pattern generators -/

/-- One note of a triplet (body of the `for` over `i < 3`). -/
def tripletNote (rs : RandSrc) (approachRate tripletSpacing : ℚ) (i : ℕ)
    (st : PosSt) : PosSt :=
  let pr := generateNextPosition rs st.k st.last 40 80
  { t := st.t + tripletSpacing, last := pr.1, k := pr.2
    acc := st.acc ++ [mkHitCircle ("triplet_" ++ toString st.t ++ "_" ++ toString i)
      pr.1 st.t approachRate] }

/-- One iteration of `generateTripletPattern`'s while-loop: three notes at
    beat/3 spacing, then with probability 0.2 a skipped beat. -/
def tripletStep (rs : RandSrc) (approachRate beatDuration : ℚ) (st : PosSt) : PosSt :=
  let sp := beatDuration / 3
  let st3 := tripletNote rs approachRate sp 2
    (tripletNote rs approachRate sp 1 (tripletNote rs approachRate sp 0 st))
  let r := rs st3.k
  { st3 with k := st3.k + 1, t := if r < 0.2 then st3.t + beatDuration else st3.t }

/-- `TechnicalBeatmapFactory.generateTripletPattern`, with explicit fuel;
    returns the final cursor and the notes. -/
def generateTripletPattern (rs : RandSrc) (fuel : ℕ)
    (startTime duration approachRate : ℚ) (difficulty : BeatmapDifficulty)
    (k : ℕ) : Option (ℕ × List HitCircle) :=
  let beatDuration := 60000 / difficulty.bpm
  let pr0 := generateRandomPosition rs k 50
  (fuelLoop (fun st : PosSt => st.t < startTime + duration)
      (tripletStep rs approachRate beatDuration)
      fuel { t := startTime, last := pr0.1, k := pr0.2, acc := [] }).map
    (fun st => (st.k, st.acc))

/-- Clamp a position to the playfield with the fixed 50-unit padding. -/
def clampToPlayfield (v : Vec2) : Vec2 :=
  ⟨max 50 (min (512 - 50) v.x), max 50 (min (384 - 50) v.y)⟩

/-- One iteration of `generateStreamPattern`'s while-loop: a note on the arc,
    advance the angle and the time, with probability 0.15 a half-spacing
    delay. -/
def streamStep (rs : RandSrc) (mo : MathOracle)
    (approachRate spacing angleIncrement centerX centerY radius : ℚ)
    (st : AngSt) : AngSt :=
  let pos := clampToPlayfield
    ⟨centerX + mo.cosO st.angle * radius, centerY + mo.sinO st.angle * radius⟩
  let c := mkHitCircle ("stream_" ++ toString st.t) pos st.t approachRate
  let r := rs st.k
  let t1 := st.t + spacing
  let t2 := if r < 0.15 then t1 + spacing / 2 else t1
  { t := t2, angle := st.angle + angleIncrement, k := st.k + 1, acc := st.acc ++ [c] }

/-- `TechnicalBeatmapFactory.generateStreamPattern`, with explicit fuel.
    The unused `lastPosition` draw still consumes two random values. -/
def generateStreamPattern (rs : RandSrc) (mo : MathOracle) (fuel : ℕ)
    (startTime duration approachRate : ℚ) (difficulty : BeatmapDifficulty)
    (k : ℕ) : Option (ℕ × List HitCircle) :=
  let bpm := difficulty.bpm
  let divisor : ℚ := if 7 < difficulty.overallDifficulty then 6 else 4
  let spacing := 60000 / bpm / divisor
  let pr0 := generateRandomPosition rs k 50
  let centerX : ℚ := 512 / 2
  let centerY : ℚ := 384 / 2
  let radius : ℚ := 150
  let angle0 := rs pr0.2 * mo.piO * 2
  let angleIncrement := mo.piO * 2 / (duration / spacing * 0.7)
  (fuelLoop (fun st : AngSt => st.t < startTime + duration)
      (streamStep rs mo approachRate spacing angleIncrement centerX centerY radius)
      fuel { t := startTime, angle := angle0, k := pr0.2 + 1, acc := [] }).map
    (fun st => (st.k, st.acc))

/-- The burst of a stack (the `for` over `i < stackSize`): `n` notes on one
    position at `stackSpacing` intervals, `i` the running note index. -/
def stackNotes (pos : Vec2) (approachRate stackSpacing : ℚ) :
    ℕ → ℕ → ℚ → List HitCircle → ℚ × List HitCircle
  | 0, _, t, acc => (t, acc)
  | n + 1, i, t, acc =>
    stackNotes pos approachRate stackSpacing n (i + 1) (t + stackSpacing)
      (acc ++ [mkHitCircle ("stack_" ++ toString t ++ "_" ++ toString i) pos t approachRate])

/-- One iteration of `generateStackPattern`'s while-loop: a 2–5 note burst on
    a fresh random position, then a 1–2 beat gap. -/
def stackStep (rs : RandSrc) (approachRate beatDuration : ℚ) (st : TimeSt) : TimeSt :=
  let pr := generateRandomPosition rs st.k 50
  let stackSize : ℤ := 2 + ⌊rs pr.2 * 4⌋
  let res := stackNotes pr.1 approachRate (beatDuration / 4) stackSize.toNat 0 st.t st.acc
  let r2 := rs (pr.2 + 1)
  { t := res.1 + beatDuration * (1 + r2), k := pr.2 + 2, acc := res.2 }

/-- `TechnicalBeatmapFactory.generateStackPattern`, with explicit fuel. -/
def generateStackPattern (rs : RandSrc) (fuel : ℕ)
    (startTime duration approachRate : ℚ) (difficulty : BeatmapDifficulty)
    (k : ℕ) : Option (ℕ × List HitCircle) :=
  let beatDuration := 60000 / difficulty.bpm
  (fuelLoop (fun st : TimeSt => st.t < startTime + duration)
      (stackStep rs approachRate beatDuration)
      fuel { t := startTime, k := k, acc := [] }).map (fun st => (st.k, st.acc))

/-- One rhythm group of a polyrhythm (the `for` over `i < division`): each
    note jitters the base position by ±20 per axis (two random values). -/
def polyNotes (rs : RandSrc) (approachRate rhythmSpacing : ℚ) (basePos : Vec2) :
    ℕ → ℕ → ℕ → ℚ → List HitCircle → ℕ × ℚ × List HitCircle
  | 0, _, k, t, acc => (k, t, acc)
  | n + 1, i, k, t, acc =>
    let pos : Vec2 := ⟨basePos.x + (rs k * 40 - 20), basePos.y + (rs (k + 1) * 40 - 20)⟩
    polyNotes rs approachRate rhythmSpacing basePos n (i + 1) (k + 2) (t + rhythmSpacing)
      (acc ++ [mkHitCircle ("poly_" ++ toString t ++ "_" ++ toString i) pos t approachRate])

/-- One iteration of `generatePolyrhythmPattern`'s while-loop: choose a
    subdivision (2, 3 or 4; the switch's default is 2), place the group, then
    with probability 0.3 a half-beat rest. -/
def polyStep (rs : RandSrc) (approachRate beatDuration : ℚ) (st : TimeSt) : TimeSt :=
  let rhythmType : ℤ := ⌊rs st.k * 3⌋
  let division : ℕ :=
    if rhythmType = 0 then 2 else if rhythmType = 1 then 3
    else if rhythmType = 2 then 4 else 2
  let rhythmSpacing := beatDuration / (division : ℚ)
  let pr := generateRandomPosition rs (st.k + 1) 50
  let res := polyNotes rs approachRate rhythmSpacing pr.1 division 0 pr.2 st.t st.acc
  let r2 := rs res.1
  let t1 := res.2.1
  { t := if r2 < 0.3 then t1 + beatDuration / 2 else t1, k := res.1 + 1, acc := res.2.2 }

/-- `TechnicalBeatmapFactory.generatePolyrhythmPattern`, with explicit fuel. -/
def generatePolyrhythmPattern (rs : RandSrc) (fuel : ℕ)
    (startTime duration approachRate : ℚ) (difficulty : BeatmapDifficulty)
    (k : ℕ) : Option (ℕ × List HitCircle) :=
  let beatDuration := 60000 / difficulty.bpm
  (fuelLoop (fun st : TimeSt => st.t < startTime + duration)
      (polyStep rs approachRate beatDuration)
      fuel { t := startTime, k := k, acc := [] }).map (fun st => (st.k, st.acc))

/-- The beat-subdivision table of the tech pattern (`divisors = [1, 1.5, 2,
    3, 4]`, indexed by `⌊r·5⌋`; out-of-range indices cannot occur for random
    values in `[0, 1)`, the final branch is arbitrary). -/
def divisorAt (i : ℤ) : ℚ :=
  if i = 0 then 1 else if i = 1 then 1.5 else if i = 2 then 2
  else if i = 3 then 3 else if i = 4 then 4 else 1

/-- `generateLinePoints`: 4 points, 70 units apart along a random heading,
    clamped to the playfield. -/
def generateLinePoints (mo : MathOracle) (startPosition : Vec2) (angle : ℚ) : List Vec2 :=
  (List.range 4).map (fun i =>
    clampToPlayfield ⟨startPosition.x + mo.cosO angle * 70 * (i : ℚ),
      startPosition.y + mo.sinO angle * 70 * (i : ℚ)⟩)

/-- `generateTrianglePoints`: equilateral triangle about the start position
    (0.866 and 0.433 as in the source; not clamped). -/
def generateTrianglePoints (startPosition : Vec2) (sideLength : ℚ) : List Vec2 :=
  [⟨startPosition.x, startPosition.y - sideLength * 0.866⟩,
   ⟨startPosition.x - sideLength / 2, startPosition.y + sideLength * 0.433⟩,
   ⟨startPosition.x + sideLength / 2, startPosition.y + sideLength * 0.433⟩]

/-- `generateRectanglePoints` (not clamped). -/
def generateRectanglePoints (startPosition : Vec2) (width height : ℚ) : List Vec2 :=
  [⟨startPosition.x - width / 2, startPosition.y - height / 2⟩,
   ⟨startPosition.x + width / 2, startPosition.y - height / 2⟩,
   ⟨startPosition.x + width / 2, startPosition.y + height / 2⟩,
   ⟨startPosition.x - width / 2, startPosition.y + height / 2⟩]

/-- The vertex loop of the tech pattern: one note per shape vertex, each with
    an independently drawn beat subdivision; tracks the last visited vertex. -/
def techNotes (rs : RandSrc) (approachRate beatDuration : ℚ) :
    List Vec2 → ℕ → ℕ → ℚ → Vec2 → List HitCircle → ℚ × ℕ × Vec2 × List HitCircle
  | [], _, k, t, last, acc => (t, k, last, acc)
  | v :: rest, i, k, t, last, acc =>
    let divisor := divisorAt ⌊rs k * 5⌋
    let spacing := beatDuration / divisor
    techNotes rs approachRate beatDuration rest (i + 1) (k + 1) (t + spacing) v
      (acc ++ [mkHitCircle ("tech_" ++ toString t ++ "_" ++ toString i) v t approachRate])

/-- One iteration of `generateTechPattern`'s while-loop: choose a shape
    (line / triangle / rectangle) near the last position, place its vertices,
    then a half-beat gap. An out-of-range shape index (impossible for random
    values in `[0, 1)`) leaves the `shape` array empty, as in the source. -/
def techStep (rs : RandSrc) (mo : MathOracle) (approachRate beatDuration : ℚ)
    (st : PosSt) : PosSt :=
  let shapeType : ℤ := ⌊rs st.k * 3⌋
  let sk : List Vec2 × ℕ :=
    if shapeType = 0 then
      (generateLinePoints mo st.last (rs (st.k + 1) * mo.piO * 2), st.k + 2)
    else if shapeType = 1 then
      (generateTrianglePoints st.last (100 + rs (st.k + 1) * 50), st.k + 2)
    else if shapeType = 2 then
      (generateRectanglePoints st.last (80 + rs (st.k + 1) * 40) (80 + rs (st.k + 2) * 40),
        st.k + 3)
    else ([], st.k + 1)
  let res := techNotes rs approachRate beatDuration sk.1 0 sk.2 st.t st.last st.acc
  { t := res.1 + beatDuration / 2, k := res.2.1, last := res.2.2.1, acc := res.2.2.2 }

/-- `TechnicalBeatmapFactory.generateTechPattern`, with explicit fuel. -/
def generateTechPattern (rs : RandSrc) (mo : MathOracle) (fuel : ℕ)
    (startTime duration approachRate : ℚ) (difficulty : BeatmapDifficulty)
    (k : ℕ) : Option (ℕ × List HitCircle) :=
  let beatDuration := 60000 / difficulty.bpm
  let pr0 := generateRandomPosition rs k 50
  (fuelLoop (fun st : PosSt => st.t < startTime + duration)
      (techStep rs mo approachRate beatDuration)
      fuel { t := startTime, last := pr0.1, k := pr0.2, acc := [] }).map
    (fun st => (st.k, st.acc))

/-- `generatePattern`: dispatch on the chosen pattern index
    (`['triplets','streams','stacks','polyrhythm','tech']`); anything else —
    including the out-of-array `undefined` — falls to the tech pattern, the
    switch's default. -/
def generatePattern (rs : RandSrc) (mo : MathOracle) (fuel : ℕ) (patternIdx : ℤ)
    (startTime duration approachRate : ℚ) (difficulty : BeatmapDifficulty)
    (k : ℕ) : Option (ℕ × List HitCircle) :=
  if patternIdx = 0 then generateTripletPattern rs fuel startTime duration approachRate difficulty k
  else if patternIdx = 1 then generateStreamPattern rs mo fuel startTime duration approachRate difficulty k
  else if patternIdx = 2 then generateStackPattern rs fuel startTime duration approachRate difficulty k
  else if patternIdx = 3 then generatePolyrhythmPattern rs fuel startTime duration approachRate difficulty k
  else generateTechPattern rs mo fuel startTime duration approachRate difficulty k

/-- One iteration of `TechnicalBeatmapFactory.generateHitObjects`'s
    while-loop: choose a pattern type, fill a 5000ms block with it, then with
    probability 0.3 a 2-beat break. Fails only if the inner fuel runs out. -/
def techOuterStep (rs : RandSrc) (mo : MathOracle) (innerFuel : ℕ)
    (approachRate : ℚ) (difficulty : BeatmapDifficulty) (st : TimeSt) :
    Option TimeSt :=
  let patternIdx : ℤ := ⌊rs st.k * 5⌋
  let patternDuration : ℚ := 5000
  match generatePattern rs mo innerFuel patternIdx st.t patternDuration approachRate
      difficulty (st.k + 1) with
  | none => none
  | some (k', patternObjects) =>
    let t1 := st.t + patternDuration
    let beatDuration := 60000 / difficulty.bpm
    let t2 := if rs k' < 0.3 then t1 + beatDuration * 2 else t1
    some { t := t2, k := k' + 1, acc := st.acc ++ patternObjects }

/-- `TechnicalBeatmapFactory.generateHitObjects`, with explicit fuel for the
    outer block loop and for the inner pattern loops. -/
def technicalGenerateHitObjects (rs : RandSrc) (mo : MathOracle)
    (outerFuel innerFuel : ℕ) (params : BeatmapCreationParams)
    (difficulty : BeatmapDifficulty) : Option (List HitCircle) :=
  let approachRate := difficulty.approachRate
  let totalDuration := params.duration
  (fuelLoopO (fun st : TimeSt => st.t < totalDuration - 1000)
      (techOuterStep rs mo innerFuel approachRate difficulty)
      outerFuel { t := 1000, k := 0, acc := [] }).map (·.acc)

/-! ### Sufficient fuel bounds -/

/-- Enough fuel for the standard factory's loop: every iteration advances the
    time by at least `spacing ≥ 150`. -/
def stdFuel (params : BeatmapCreationParams) : ℕ :=
  ⌈(params.duration - 1000 - 1000) / 150⌉₊

/-- Enough fuel for the technical factory's outer loop: every block advances
    the time by at least 5000ms. -/
def techOuterFuel (params : BeatmapCreationParams) : ℕ :=
  ⌈(params.duration - 1000 - 1000) / 5000⌉₊

/-- Enough fuel for every inner pattern loop: each iteration advances the
    time by at least a sixth of a beat, over a 5000ms block. -/
def techInnerFuel (difficulty : BeatmapDifficulty) : ℕ :=
  ⌈5000 / (60000 / difficulty.bpm / 6)⌉₊

/-- The inductive invariant behind the processed/missed bookkeeping: the two
    id sets are disjoint, both only hold ids of beatmap objects, and every
    missed object lies at least 200ms before the miss-sweep watermark `w`
    (no sweep yet means no misses). -/
def SessionInv (s : GameSession) (w : Option ℚ) : Prop :=
  s.processedHitObjects ∩ s.missedHitObjects = ∅ ∧
  (∀ a ∈ s.processedHitObjects, ∃ o ∈ s.beatmap.hitObjects, o.id = a) ∧
  (∀ a ∈ s.missedHitObjects, ∃ o ∈ s.beatmap.hitObjects, o.id = a) ∧
  (∀ x, w = some x → ∀ o ∈ s.beatmap.hitObjects, o.id ∈ s.missedHitObjects →
    o.time ≤ x - 200) ∧
  (w = none → s.missedHitObjects = ∅)

/-! # Theorems -/

/-- C2: spatial test first — an out-of-range click is a MISS worth 0/0
    whatever the timing; an in-range click is classified by `|Δt|` against
    the windows 16 / 64 / 127 / 151 ms with the fixed points/accuracy table. -/
theorem hitcircle_evaluate_classification (c : HitCircle) (t : ℚ) (p : Vec2) :
    (¬ c.isPointInside p →
      (c.evaluate t p).1 = { type := .MISS, points := 0, accuracy := 0, timestamp := t }) ∧
    (c.isPointInside p → |t - c.time| ≤ 16 →
      (c.evaluate t p).1 = { type := .PERFECT, points := 300, accuracy := 1, timestamp := t }) ∧
    (c.isPointInside p → 16 < |t - c.time| → |t - c.time| ≤ 64 →
      (c.evaluate t p).1 = { type := .GREAT, points := 100, accuracy := 0.66, timestamp := t }) ∧
    (c.isPointInside p → 64 < |t - c.time| → |t - c.time| ≤ 127 →
      (c.evaluate t p).1 = { type := .GOOD, points := 50, accuracy := 0.33, timestamp := t }) ∧
    (c.isPointInside p → 127 < |t - c.time| → |t - c.time| ≤ 151 →
      (c.evaluate t p).1 = { type := .BAD, points := 10, accuracy := 0.1, timestamp := t }) ∧
    (c.isPointInside p → 151 < |t - c.time| →
      (c.evaluate t p).1 = { type := .MISS, points := 0, accuracy := 0, timestamp := t }) := by
  refine ⟨?_, ?_, ?_, ?_, ?_, ?_⟩
  · intro h
    simp [HitCircle.evaluate, h]
  · intro h h1
    simp [HitCircle.evaluate, HitCircle.baseEvaluate, HitCircle.pointsFor,
      HitCircle.accuracyFor, h, h1]
  · intro h h1 h2
    have h3 : ¬ |t - c.time| ≤ 16 := by linarith
    simp [HitCircle.evaluate, HitCircle.baseEvaluate, HitCircle.pointsFor,
      HitCircle.accuracyFor, h, h2, h3]
  · intro h h1 h2
    have h3 : ¬ |t - c.time| ≤ 16 := by linarith
    have h4 : ¬ |t - c.time| ≤ 64 := by linarith
    simp [HitCircle.evaluate, HitCircle.baseEvaluate, HitCircle.pointsFor,
      HitCircle.accuracyFor, h, h2, h3, h4]
  · intro h h1 h2
    have h3 : ¬ |t - c.time| ≤ 16 := by linarith
    have h4 : ¬ |t - c.time| ≤ 64 := by linarith
    have h5 : ¬ |t - c.time| ≤ 127 := by linarith
    simp [HitCircle.evaluate, HitCircle.baseEvaluate, HitCircle.pointsFor,
      HitCircle.accuracyFor, h, h2, h3, h4, h5]
  · intro h h1
    have h3 : ¬ |t - c.time| ≤ 16 := by linarith
    have h4 : ¬ |t - c.time| ≤ 64 := by linarith
    have h5 : ¬ |t - c.time| ≤ 127 := by linarith
    have h6 : ¬ |t - c.time| ≤ 151 := by linarith
    simp [HitCircle.evaluate, HitCircle.baseEvaluate, HitCircle.pointsFor,
      HitCircle.accuracyFor, h, h3, h4, h5, h6]

/-- Witness for C2: a click 10 units off-center (inside the 54 radius) and
    10ms late is PERFECT for 300 points. -/
theorem hitcircle_evaluate_classification_witness :
    ((mkHitCircle "c" ⟨100, 100⟩ 1000 5).evaluate 1010 ⟨110, 110⟩).1
      = { type := .PERFECT, points := 300, accuracy := 1, timestamp := 1010 } :=
  (hitcircle_evaluate_classification _ _ _).2.1
    (by norm_num [mkHitCircle, HitCircle.isPointInside, sqrtLE])
    (by norm_num [mkHitCircle, abs_of_nonneg])

/-- C3 (amended): the `isHit`/`hitTime` side effect happens exactly on the
    in-range path — there `hitTime` becomes the click time and `isHit` is set
    iff the result is not a MISS; an out-of-range click leaves the object
    untouched. -/
theorem evaluate_sets_state_inside (c : HitCircle) (t : ℚ) (p : Vec2) :
    (c.isPointInside p →
      (c.evaluate t p).2.hitTime = some t ∧
      ((c.evaluate t p).2.isHit = true ↔ (c.evaluate t p).1.type ≠ .MISS)) ∧
    (¬ c.isPointInside p → (c.evaluate t p).2 = c) := by
  constructor
  · intro h
    simp [HitCircle.evaluate, h]
  · intro h
    simp [HitCircle.evaluate, h]

/-- Counterexample to C3 as stated: for a click outside the hit region,
    `evaluate` returns early and `hitTime` does *not* become the click time. -/
theorem evaluate_state_counterexample :
    ((mkHitCircle "c" ⟨100, 100⟩ 1000 5).evaluate 1010 ⟨300, 300⟩).2.hitTime
      ≠ some 1010 := by
  norm_num [HitCircle.evaluate, mkHitCircle, HitCircle.isPointInside, sqrtLE]
  simp

/-- Witness for C3 (amended): an in-range but hopelessly late click sets
    `hitTime` and leaves `isHit` false because the result is a MISS. -/
theorem evaluate_sets_state_inside_witness :
    ((mkHitCircle "c" ⟨100, 100⟩ 1000 5).evaluate 1200 ⟨110, 110⟩).2.hitTime = some 1200 ∧
    (((mkHitCircle "c" ⟨100, 100⟩ 1000 5).evaluate 1200 ⟨110, 110⟩).2.isHit = true ↔
      ((mkHitCircle "c" ⟨100, 100⟩ 1000 5).evaluate 1200 ⟨110, 110⟩).1.type ≠ .MISS) :=
  (evaluate_sets_state_inside _ _ _).1
    (by norm_num [mkHitCircle, HitCircle.isPointInside, sqrtLE])

/-- C4: `start` succeeds exactly from READY or PAUSED, `pause` exactly from
    PLAYING; a failed call reports an error and returns the session exactly
    as it was. -/
theorem start_pause_guards (s : GameSession) (t : ℚ) :
    ((s.start t).1 = none ↔ (s.state = .READY ∨ s.state = .PAUSED)) ∧
    ((s.start t).1 ≠ none → (s.start t).2 = s) ∧
    ((s.pause t).1 = none ↔ s.state = .PLAYING) ∧
    ((s.pause t).1 ≠ none → (s.pause t).2 = s) := by
  cases hs : s.state <;>
    simp [GameSession.start, GameSession.pause, hs]

/-- Witness for C4: on a COMPLETED session both `start` and `pause` fail and
    leave the session unchanged. -/
theorem start_pause_guards_witness :
    (GameSession.start (GameSession.endSession (mkGameSession "s" (mkBeatmap "b" []))) 5).2
        = GameSession.endSession (mkGameSession "s" (mkBeatmap "b" [])) ∧
    (GameSession.pause (GameSession.endSession (mkGameSession "s" (mkBeatmap "b" []))) 5).2
        = GameSession.endSession (mkGameSession "s" (mkBeatmap "b" [])) :=
  ⟨(start_pause_guards _ 5).2.1
      (by simp [GameSession.start, GameSession.endSession, mkGameSession, mkBeatmap]),
    (start_pause_guards _ 5).2.2.2
      (by simp [GameSession.pause, GameSession.endSession, mkGameSession, mkBeatmap])⟩

/-- C5 (amended): for a started session, time is frozen at
    `pausedAt - startTime - totalPausedTime` while PAUSED — provided the
    pause marker is nonzero (the source's truthiness test `if (_pausedAt)`
    treats a marker of 0 as absent) — and equals
    `timestamp - startTime - totalPausedTime` while not PAUSED. -/
theorem getCurrentTime_spec (s : GameSession) (t st : ℚ)
    (hst : s.startTime = some st) :
    (∀ p, s.pausedAt = some p → p ≠ 0 → s.state = .PAUSED →
      s.getCurrentTime t = p - st - s.totalPausedTime) ∧
    (s.state ≠ .PAUSED → s.getCurrentTime t = t - st - s.totalPausedTime) := by
  constructor
  · intro p hp hne hps
    simp [GameSession.getCurrentTime, hst, hp, hne, hps]
  · intro h
    cases hp : s.pausedAt <;> simp [GameSession.getCurrentTime, hst, hp, h]

/-- Counterexample to C5 as stated: pause exactly at timestamp 0 — the
    session is started, PAUSED, with marker `some 0`, yet `getCurrentTime 5`
    is 5, not the frozen `pausedAt - startTime - totalPausedTime = 0`. -/
theorem getCurrentTime_paused_counterexample :
    ((GameSession.pause ((mkGameSession "s" (mkBeatmap "b" [])).start 0).2 0).2.state
        = GameState.PAUSED) ∧
    ((GameSession.pause ((mkGameSession "s" (mkBeatmap "b" [])).start 0).2 0).2.pausedAt
        = some 0) ∧
    ((GameSession.pause ((mkGameSession "s" (mkBeatmap "b" [])).start 0).2 0).2.startTime
        = some 0) ∧
    GameSession.getCurrentTime
        (GameSession.pause ((mkGameSession "s" (mkBeatmap "b" [])).start 0).2 0).2 5 ≠ 0 := by
  simp [mkGameSession, mkBeatmap, sortByTime, GameSession.start, GameSession.pause,
    GameSession.getCurrentTime]

/-- Witness for C5 (amended): start at 10, pause at 50 — at timestamp 70 the
    clock reads the frozen 50 - 10 - 0 = 40. -/
theorem getCurrentTime_spec_witness :
    GameSession.getCurrentTime
        (GameSession.pause ((mkGameSession "s" (mkBeatmap "b" [])).start 10).2 50).2 70 = 40 :=
  ((getCurrentTime_spec _ 70 10
        (by simp [mkGameSession, mkBeatmap, GameSession.start, GameSession.pause])).1 50
      (by simp [mkGameSession, mkBeatmap, GameSession.start, GameSession.pause])
      (by norm_num)
      (by simp [mkGameSession, mkBeatmap, GameSession.start, GameSession.pause])).trans
    (by simp [mkGameSession, mkBeatmap, GameSession.start, GameSession.pause]; norm_num)

/-- C6: `createDifficulty` clamps the level to [1,10], scales AR/CS/OD/HP
    from bases 5/4/5/5 by `clamp(1, 10, base * (0.7 + level/10 * 0.8))`, and
    the slider multiplier `1 + level/20` always lies in [1.05, 1.5]. -/
theorem createDifficulty_spec (L bpm : ℚ) :
    (BaseBeatmapFactory.createDifficulty L bpm).approachRate
        = min 10 (max 1 (5 * (0.7 + min 10 (max 1 L) / 10 * 0.8))) ∧
    (BaseBeatmapFactory.createDifficulty L bpm).circleSize
        = min 10 (max 1 (4 * (0.7 + min 10 (max 1 L) / 10 * 0.8))) ∧
    (BaseBeatmapFactory.createDifficulty L bpm).overallDifficulty
        = min 10 (max 1 (5 * (0.7 + min 10 (max 1 L) / 10 * 0.8))) ∧
    (BaseBeatmapFactory.createDifficulty L bpm).healthDrain
        = min 10 (max 1 (5 * (0.7 + min 10 (max 1 L) / 10 * 0.8))) ∧
    (BaseBeatmapFactory.createDifficulty L bpm).sliderMultiplier
        = 1.0 + min 10 (max 1 L) / 20 ∧
    1.05 ≤ (BaseBeatmapFactory.createDifficulty L bpm).sliderMultiplier ∧
    (BaseBeatmapFactory.createDifficulty L bpm).sliderMultiplier ≤ 1.5 ∧
    (BaseBeatmapFactory.createDifficulty L bpm).bpm = bpm := by
  have hlo : (1 : ℚ) ≤ min 10 (max 1 L) := le_min (by norm_num) (le_max_left 1 L)
  have hhi : min 10 (max 1 L) ≤ 10 := min_le_left 10 _
  refine ⟨rfl, rfl, rfl, rfl, rfl, ?_, ?_, rfl⟩ <;>
    · simp only [BaseBeatmapFactory.createDifficulty]
      norm_num
      linarith

/-- C10: mirroring twice about the same axis with the same playfield size
    restores every object's position and time (ids, name and tags may
    differ). -/
theorem createMirrored_involutive (p : BeatmapPattern) (axis : MirrorAxis)
    (W H : ℚ) (n1 n2 : String) :
    ((p.createMirrored axis W H n1).createMirrored axis W H n2).hitObjects.map
        (fun o => (o.position, o.time))
      = p.hitObjects.map (fun o => (o.position, o.time)) := by
  obtain ⟨pid, pname, objs, rp, pd, tags⟩ := p
  cases axis <;>
    · induction objs with
      | nil => simp [BeatmapPattern.createMirrored]
      | cons o os ih =>
        simp only [BeatmapPattern.createMirrored, List.map_cons, List.map_map,
          Function.comp, HitCircle.clone, List.cons.injEq] at ih ⊢
        refine ⟨?_, ih⟩
        simp only [Prod.mk.injEq, Vec2.mk.injEq]
        norm_num

/-- C7: the grading cascade — SS iff accuracy ≥ 1; else S iff accuracy ≥ 0.9
    with perfect ratio ≥ 0.9 and no misses; else A/B/C/D at 0.8/0.7/0.6/0.5
    and F below; and the spec's Scenario E concretely (accuracy 0.95,
    perfect ratio 0.92, zero misses over 175 judged hits grades S, not SS). -/
theorem calculateGrade_spec :
    (∀ s : Score,
      (s.calculateGrade = .SS ↔ 1.0 ≤ s.accuracy) ∧
      (s.calculateGrade = .S ↔ (¬ 1.0 ≤ s.accuracy ∧ 0.9 ≤ s.accuracy ∧
          0.9 ≤ (s.perfectCount : ℚ) / (s.totalHits : ℚ) ∧ s.missCount = 0)) ∧
      (s.calculateGrade = .A ↔ (¬ 1.0 ≤ s.accuracy ∧
          ¬ (0.9 ≤ s.accuracy ∧ 0.9 ≤ (s.perfectCount : ℚ) / (s.totalHits : ℚ) ∧
            s.missCount = 0) ∧
          0.8 ≤ s.accuracy)) ∧
      (s.calculateGrade = .B ↔ (¬ 1.0 ≤ s.accuracy ∧
          ¬ (0.9 ≤ s.accuracy ∧ 0.9 ≤ (s.perfectCount : ℚ) / (s.totalHits : ℚ) ∧
            s.missCount = 0) ∧
          ¬ 0.8 ≤ s.accuracy ∧ 0.7 ≤ s.accuracy)) ∧
      (s.calculateGrade = .C ↔ (¬ 1.0 ≤ s.accuracy ∧
          ¬ (0.9 ≤ s.accuracy ∧ 0.9 ≤ (s.perfectCount : ℚ) / (s.totalHits : ℚ) ∧
            s.missCount = 0) ∧
          ¬ 0.8 ≤ s.accuracy ∧ ¬ 0.7 ≤ s.accuracy ∧ 0.6 ≤ s.accuracy)) ∧
      (s.calculateGrade = .D ↔ (¬ 1.0 ≤ s.accuracy ∧
          ¬ (0.9 ≤ s.accuracy ∧ 0.9 ≤ (s.perfectCount : ℚ) / (s.totalHits : ℚ) ∧
            s.missCount = 0) ∧
          ¬ 0.8 ≤ s.accuracy ∧ ¬ 0.7 ≤ s.accuracy ∧ ¬ 0.6 ≤ s.accuracy ∧
          0.5 ≤ s.accuracy)) ∧
      (s.calculateGrade = .F ↔ (¬ 1.0 ≤ s.accuracy ∧
          ¬ (0.9 ≤ s.accuracy ∧ 0.9 ≤ (s.perfectCount : ℚ) / (s.totalHits : ℚ) ∧
            s.missCount = 0) ∧
          ¬ 0.8 ≤ s.accuracy ∧ ¬ 0.7 ≤ s.accuracy ∧ ¬ 0.6 ≤ s.accuracy ∧
          ¬ 0.5 ≤ s.accuracy))) ∧
    Score.calculateGrade
      { points := 0, maxCombo := 0, currentCombo := 0, missCount := 0, badCount := 3,
        goodCount := 7, greatCount := 4, perfectCount := 161, totalHits := 175,
        totalPossibleHits := 175 } = .S := by
  constructor
  · intro s
    simp only [Score.calculateGrade]
    split_ifs with h1 h2 h3 h4 h5 h6 <;>
      simp_all [Nat.pos_iff_ne_zero]
  · norm_num [Score.calculateGrade, Score.accuracy]

/-- Unfolding one step of `GameSession.missFold`. -/
theorem missFold_cons (o : HitCircle) (l : List HitCircle) (s : GameSession) :
    GameSession.missFold (o :: l) s = GameSession.missFold l
      { s with score := s.score.addResult .MISS 0
               missedHitObjects := insert o.id s.missedHitObjects } := rfl

/-- The miss sweep's loop only touches the score and the missed set. -/
theorem missFold_fields (l : List HitCircle) (s : GameSession) :
    (GameSession.missFold l s).state = s.state ∧
    (GameSession.missFold l s).startTime = s.startTime ∧
    (GameSession.missFold l s).pausedAt = s.pausedAt ∧
    (GameSession.missFold l s).totalPausedTime = s.totalPausedTime ∧
    (GameSession.missFold l s).beatmap = s.beatmap ∧
    (GameSession.missFold l s).processedHitObjects = s.processedHitObjects := by
  induction l generalizing s with
  | nil => exact ⟨rfl, rfl, rfl, rfl, rfl, rfl⟩
  | cons o l ih => rw [missFold_cons]; exact ih _

/-- The miss sweep's loop adds exactly the swept ids to the missed set. -/
theorem missFold_missed (l : List HitCircle) (s : GameSession) :
    (GameSession.missFold l s).missedHitObjects
      = s.missedHitObjects ∪ (l.map HitCircle.id).toFinset := by
  induction l generalizing s with
  | nil => simp [GameSession.missFold]
  | cons o l ih =>
    rw [missFold_cons, ih]
    simp [Finset.union_insert, Finset.insert_union]

/-- `getCurrentTime` only reads the state, start time, pause marker and
    accumulated pause time. -/
theorem getCurrentTime_congr (s s' : GameSession) (t : ℚ)
    (h1 : s'.state = s.state) (h2 : s'.startTime = s.startTime)
    (h3 : s'.pausedAt = s.pausedAt) (h4 : s'.totalPausedTime = s.totalPausedTime) :
    s'.getCurrentTime t = s.getCurrentTime t := by
  unfold GameSession.getCurrentTime
  rw [h1, h2, h3, h4]

/-- `checkForMissedObjects` while PLAYING is the sweep of the precomputed
    miss list. -/
theorem checkForMissedObjects_playing (s : GameSession) (t : ℚ)
    (hp : s.state = .PLAYING) :
    s.checkForMissedObjects t = GameSession.missFold
      ((s.beatmap.getHitObjectsInTimeRange 0 (s.getCurrentTime t - 200)).filter
        (fun obj => decide (obj.id ∉ s.processedHitObjects ∧ obj.id ∉ s.missedHitObjects)))
      s := by
  simp [GameSession.checkForMissedObjects, hp]

/-- `checkForMissedObjects` outside PLAYING does nothing. -/
theorem checkForMissedObjects_not_playing (s : GameSession) (t : ℚ)
    (hp : s.state ≠ .PLAYING) :
    s.checkForMissedObjects t = s := by
  simp [GameSession.checkForMissedObjects, hp]

/-- C8: `checkForMissedObjects` is idempotent — re-running it at the same
    timestamp changes neither the missed set, nor the processed set, nor the
    score (the whole session is unchanged). -/
theorem checkForMissedObjects_idempotent (s : GameSession) (t : ℚ) :
    GameSession.checkForMissedObjects (s.checkForMissedObjects t) t
      = s.checkForMissedObjects t := by
  by_cases hp : s.state = GameState.PLAYING
  · have hs' := checkForMissedObjects_playing s t hp
    set L := (s.beatmap.getHitObjectsInTimeRange 0 (s.getCurrentTime t - 200)).filter
      (fun obj => decide (obj.id ∉ s.processedHitObjects ∧ obj.id ∉ s.missedHitObjects))
      with hL
    set s' := s.checkForMissedObjects t with hs'def
    obtain ⟨f1, f2, f3, f4, f5, f6⟩ := missFold_fields L s
    rw [← hs'] at f1 f2 f3 f4 f5 f6
    have hmiss : s'.missedHitObjects
        = s.missedHitObjects ∪ (L.map HitCircle.id).toFinset := by
      rw [hs']; exact missFold_missed L s
    have hct : s'.getCurrentTime t = s.getCurrentTime t :=
      getCurrentTime_congr s s' t f1 f2 f3 f4
    have hstate : s'.state = GameState.PLAYING := f1.trans hp ▸ by rw [f1, hp]
    rw [checkForMissedObjects_playing s' t (by rw [f1, hp]), f5, f6, hct]
    have hnil : (s.beatmap.getHitObjectsInTimeRange 0 (s.getCurrentTime t - 200)).filter
        (fun obj => decide (obj.id ∉ s.processedHitObjects ∧ obj.id ∉ s'.missedHitObjects))
        = [] := by
      apply List.filter_eq_nil_iff.mpr
      intro o ho
      simp only [decide_eq_true_eq, not_and, not_not]
      intro hop
      rw [hmiss]
      by_cases hom : o.id ∈ s.missedHitObjects
      · simp [hom]
      · have hoL : o ∈ L := by
          rw [hL]
          simp only [List.mem_filter, decide_eq_true_eq]
          exact ⟨ho, hop, hom⟩
        have : o.id ∈ (L.map HitCircle.id).toFinset := by
          simp only [List.mem_toFinset, List.mem_map]
          exact ⟨o, hoL, rfl⟩
        simp [this]
    rw [hnil]
    rfl
  · rw [checkForMissedObjects_not_playing s t hp,
      checkForMissedObjects_not_playing s t hp]

/-- The `reduce`-style closest pick always selects one of the candidates. -/
theorem closestTo_mem (ct : ℚ) :
    ∀ (rest : List HitCircle) (first : HitCircle),
      GameSession.closestTo ct first rest ∈ first :: rest := by
  intro rest
  induction rest with
  | nil => intro f; simp [GameSession.closestTo]
  | cons o rest ih =>
    intro f
    have h := ih (if |o.time - ct| < |f.time - ct| then o else f)
    simp only [GameSession.closestTo, List.foldl_cons] at h ⊢
    rcases List.mem_cons.1 h with h1 | h1
    · rw [h1]
      split_ifs <;> simp
    · simp [h1]

/-- `start` never touches the beatmap or the judged-id bookkeeping. -/
theorem start_preserves (s : GameSession) (t : ℚ) :
    (s.start t).2.beatmap = s.beatmap ∧
    (s.start t).2.processedHitObjects = s.processedHitObjects ∧
    (s.start t).2.missedHitObjects = s.missedHitObjects := by
  by_cases h : s.state ≠ GameState.READY ∧ s.state ≠ GameState.PAUSED
  · simp [GameSession.start, h]
  · by_cases h2 : s.state = GameState.PAUSED
    · cases hpa : s.pausedAt with
      | none => simp [GameSession.start, h, h2, hpa]
      | some p =>
        by_cases hp0 : p = 0 <;> simp [GameSession.start, h, h2, hpa, hp0]
    · have h3 : s.state = GameState.READY := by
        by_contra h3
        exact h ⟨h3, h2⟩
      simp [GameSession.start, h, h2, h3]

/-- `pause` never touches the beatmap or the judged-id bookkeeping. -/
theorem pause_preserves (s : GameSession) (t : ℚ) :
    (s.pause t).2.beatmap = s.beatmap ∧
    (s.pause t).2.processedHitObjects = s.processedHitObjects ∧
    (s.pause t).2.missedHitObjects = s.missedHitObjects := by
  unfold GameSession.pause
  split_ifs <;> simp

/-- `processHit` outside PLAYING does nothing. -/
theorem processHit_not_playing (s : GameSession) (pos : Vec2) (t : ℚ)
    (hp : s.state ≠ .PLAYING) : s.processHit pos t = (none, s) := by
  simp [GameSession.processHit, hp]

/-- `processHit` while PLAYING with no candidate in the ±200ms window does
    nothing. -/
theorem processHit_playing_nil (s : GameSession) (pos : Vec2) (t : ℚ)
    (hp : s.state = .PLAYING)
    (hrel : List.filter (fun obj => !decide (obj.id ∈ s.processedHitObjects))
        (s.beatmap.getHitObjectsInTimeRange
          (s.getCurrentTime t - 200) (s.getCurrentTime t + 200)) = []) :
    s.processHit pos t = (none, s) := by
  simp [GameSession.processHit, hp, hrel]

/-- `processHit` while PLAYING with candidates: evaluate the time-closest
    one, mark it processed, fold the result into the score. -/
theorem processHit_playing_cons (s : GameSession) (pos : Vec2) (t : ℚ)
    (hp : s.state = .PLAYING) (f : HitCircle) (rest : List HitCircle)
    (hrel : List.filter (fun obj => !decide (obj.id ∈ s.processedHitObjects))
        (s.beatmap.getHitObjectsInTimeRange
          (s.getCurrentTime t - 200) (s.getCurrentTime t + 200)) = f :: rest) :
    (s.processHit pos t).2 = { s with
      processedHitObjects :=
        insert (GameSession.closestTo (s.getCurrentTime t) f rest).id
          s.processedHitObjects
      score := s.score.addResult
        (((GameSession.closestTo (s.getCurrentTime t) f rest).evaluate
          (s.getCurrentTime t) pos).1).type
        (((GameSession.closestTo (s.getCurrentTime t) f rest).evaluate
          (s.getCurrentTime t) pos).1).points } := by
  simp [GameSession.processHit, hp, hrel]

/-- Every step of the session state machine keeps the same beatmap. -/
theorem stepCmd_beatmap (s : GameSession) (c : Cmd) :
    (stepCmd s c).beatmap = s.beatmap := by
  cases c with
  | start t => exact (start_preserves s t).1
  | pause t => exact (pause_preserves s t).1
  | hit pos t =>
    simp only [stepCmd]
    by_cases hp : s.state = .PLAYING
    · rcases hrel : List.filter (fun obj => !decide (obj.id ∈ s.processedHitObjects))
          (s.beatmap.getHitObjectsInTimeRange
            (s.getCurrentTime t - 200) (s.getCurrentTime t + 200)) with _ | ⟨f, rest⟩
      · rw [processHit_playing_nil s pos t hp hrel]
      · rw [processHit_playing_cons s pos t hp f rest hrel]
    · rw [processHit_not_playing s pos t hp]
  | check t =>
    simp only [stepCmd]
    by_cases hp : s.state = .PLAYING
    · rw [checkForMissedObjects_playing s t hp]
      exact (missFold_fields _ s).2.2.2.2.1
    · rw [checkForMissedObjects_not_playing s t hp]

/-- Length bookkeeping for the constructor's insertion sort. -/
theorem insertByTime_length (c : HitCircle) :
    ∀ l : List HitCircle, (insertByTime c l).length = l.length + 1 := by
  intro l
  induction l with
  | nil => rfl
  | cons d ds ih => rw [insertByTime]; split_ifs <;> simp [ih]

/-- Sorting at beatmap construction keeps the number of hit objects. -/
theorem sortByTime_length :
    ∀ l : List HitCircle, (sortByTime l).length = l.length := by
  intro l
  induction l with
  | nil => rfl
  | cons c cs ih => rw [sortByTime, insertByTime_length, ih]; rfl

/-- One command preserves the session invariant, given the strictness
    condition on hits (C1's amended hypothesis). -/
theorem sessionInv_step (s : GameSession) (w : Option ℚ) (c : Cmd)
    (hnd : (s.beatmap.hitObjects.map HitCircle.id).Nodup)
    (hinv : SessionInv s w) (hok : hitOk s w c) :
    SessionInv (stepCmd s c) (wmUpd s w c) := by
  obtain ⟨hdisj, hproc, hmiss, hwm, hw0⟩ := hinv
  cases c with
  | start t =>
    obtain ⟨b1, b2, b3⟩ := start_preserves s t
    simp only [stepCmd, wmUpd, SessionInv, b1, b2, b3]
    exact ⟨hdisj, hproc, hmiss, hwm, hw0⟩
  | pause t =>
    obtain ⟨b1, b2, b3⟩ := pause_preserves s t
    simp only [stepCmd, wmUpd, SessionInv, b1, b2, b3]
    exact ⟨hdisj, hproc, hmiss, hwm, hw0⟩
  | hit pos t =>
    simp only [stepCmd, wmUpd]
    by_cases hp : s.state = GameState.PLAYING
    · rcases hrel : List.filter (fun obj => !decide (obj.id ∈ s.processedHitObjects))
          (s.beatmap.getHitObjectsInTimeRange
            (s.getCurrentTime t - 200) (s.getCurrentTime t + 200)) with _ | ⟨f, rest⟩
      · rw [processHit_playing_nil s pos t hp hrel]
        exact ⟨hdisj, hproc, hmiss, hwm, hw0⟩
      · rw [processHit_playing_cons s pos t hp f rest hrel]
        have hclmem : GameSession.closestTo (s.getCurrentTime t) f rest ∈ f :: rest :=
          closestTo_mem _ rest f
        rw [← hrel] at hclmem
        simp only [List.mem_filter, Bool.not_eq_true', decide_eq_false_iff_not] at hclmem
        obtain ⟨hclrange, hclnp⟩ := hclmem
        have hclobj : GameSession.closestTo (s.getCurrentTime t) f rest
            ∈ s.beatmap.hitObjects ∧
            s.getCurrentTime t - 200 ≤ (GameSession.closestTo (s.getCurrentTime t) f rest).time ∧
            (GameSession.closestTo (s.getCurrentTime t) f rest).time
              ≤ s.getCurrentTime t + 200 := by
          simpa [Beatmap.getHitObjectsInTimeRange, List.mem_filter, decide_eq_true_eq,
            and_assoc] using hclrange
        have hclnm : (GameSession.closestTo (s.getCurrentTime t) f rest).id
            ∉ s.missedHitObjects := by
          intro hmem
          cases w with
          | none =>
            rw [hw0 rfl] at hmem
            exact absurd hmem (Finset.not_mem_empty _)
          | some x =>
            have hle := hwm x rfl _ hclobj.1 hmem
            have hlt := hok hp x rfl
            have := hclobj.2.1
            linarith
        refine ⟨?_, ?_, hmiss, hwm, hw0⟩
        · rw [Finset.insert_inter_of_not_mem hclnm]
          exact hdisj
        · intro a ha
          rcases Finset.mem_insert.1 ha with rfl | ha'
          · exact ⟨_, hclobj.1, rfl⟩
          · exact hproc a ha'
    · rw [processHit_not_playing s pos t hp]
      exact ⟨hdisj, hproc, hmiss, hwm, hw0⟩
  | check t =>
    by_cases hp : s.state = GameState.PLAYING
    · simp only [stepCmd, wmUpd, if_pos hp]
      rw [checkForMissedObjects_playing s t hp]
      have hm := missFold_missed
        ((s.beatmap.getHitObjectsInTimeRange 0 (s.getCurrentTime t - 200)).filter
          (fun obj => decide (obj.id ∉ s.processedHitObjects ∧ obj.id ∉ s.missedHitObjects))) s
      obtain ⟨g1, g2, g3, g4, g5, g6⟩ := missFold_fields
        ((s.beatmap.getHitObjectsInTimeRange 0 (s.getCurrentTime t - 200)).filter
          (fun obj => decide (obj.id ∉ s.processedHitObjects ∧ obj.id ∉ s.missedHitObjects))) s
      -- membership facts about the swept list
      have hLmem : ∀ o, o ∈ (s.beatmap.getHitObjectsInTimeRange 0
            (s.getCurrentTime t - 200)).filter
            (fun obj => decide (obj.id ∉ s.processedHitObjects ∧ obj.id ∉ s.missedHitObjects)) →
          o ∈ s.beatmap.hitObjects ∧ 0 ≤ o.time ∧ o.time ≤ s.getCurrentTime t - 200 ∧
          o.id ∉ s.processedHitObjects ∧ o.id ∉ s.missedHitObjects := by
        intro o ho
        simp only [List.mem_filter, decide_eq_true_eq, Beatmap.getHitObjectsInTimeRange,
          and_assoc] at ho
        tauto
      refine ⟨?_, ?_, ?_, ?_, ?_⟩
      · rw [g6, hm]
        apply Finset.eq_empty_iff_forall_not_mem.mpr
        intro a ha
        obtain ⟨hap, ham⟩ := Finset.mem_inter.1 ha
        rcases Finset.mem_union.1 ham with ham' | ham'
        · have : a ∈ s.processedHitObjects ∩ s.missedHitObjects :=
            Finset.mem_inter.2 ⟨hap, ham'⟩
          rw [hdisj] at this
          exact absurd this (Finset.not_mem_empty _)
        · obtain ⟨o, hoL, rfl⟩ := List.mem_map.1 (List.mem_toFinset.1 ham')
          exact (hLmem o hoL).2.2.2.1 hap
      · rw [g6, g5]
        exact hproc
      · rw [hm, g5]
        intro a ha
        rcases Finset.mem_union.1 ha with ha' | ha'
        · exact hmiss a ha'
        · obtain ⟨o, hoL, rfl⟩ := List.mem_map.1 (List.mem_toFinset.1 ha')
          exact ⟨o, (hLmem o hoL).1, rfl⟩
      · intro x' hx' o ho hom
        rw [g5] at ho
        rw [hm] at hom
        have hctle : s.getCurrentTime t ≤ x' := by
          cases w with
          | none =>
            simp only [Option.some.injEq] at hx'
            rw [← hx']
          | some x =>
            simp only [Option.some.injEq] at hx'
            rw [← hx']
            exact le_max_right x _
        rcases Finset.mem_union.1 hom with hom' | hom'
        · cases w with
          | none =>
            rw [hw0 rfl] at hom'
            exact absurd hom' (Finset.not_mem_empty _)
          | some x =>
            have hle := hwm x rfl o ho hom'
            simp only [Option.some.injEq] at hx'
            have : x ≤ x' := by rw [← hx']; exact le_max_left x _
            linarith
        · obtain ⟨o', hoL, hid⟩ := List.mem_map.1 (List.mem_toFinset.1 hom')
          obtain ⟨ho'mem, _, ho'le, _, _⟩ := hLmem o' hoL
          have : o' = o := List.inj_on_of_nodup_map hnd ho'mem ho hid
          rw [← this]
          linarith
      · intro hx'
        cases w <;> simp at hx'
    · simp only [stepCmd, wmUpd, if_neg hp]
      rw [checkForMissedObjects_not_playing s t hp]
      exact ⟨hdisj, hproc, hmiss, hwm, hw0⟩

/-- Driving preserves the beatmap. -/
theorem runCmds_beatmap :
    ∀ (cmds : List Cmd) (s : GameSession), (runCmds s cmds).beatmap = s.beatmap := by
  intro cmds
  induction cmds with
  | nil => intro s; rfl
  | cons c cs ih =>
    intro s
    have : runCmds s (c :: cs) = runCmds (stepCmd s c) cs := rfl
    rw [this, ih, stepCmd_beatmap]

/-- The session invariant holds along every admissible trace. -/
theorem sessionInv_runCmds :
    ∀ (cmds : List Cmd) (s : GameSession) (w : Option ℚ),
      (s.beatmap.hitObjects.map HitCircle.id).Nodup → SessionInv s w →
      traceOk s w cmds → ∃ w', SessionInv (runCmds s cmds) w' := by
  intro cmds
  induction cmds with
  | nil => exact fun s w _ h _ => ⟨w, h⟩
  | cons c cs ih =>
    intro s w hnd hinv hok
    exact ih (stepCmd s c) (wmUpd s w c)
      (by rw [stepCmd_beatmap]; exact hnd)
      (sessionInv_step s w c hnd hinv hok.1) hok.2

/-- C1 (amended): along any trace of start/pause/processHit/
    checkForMissedObjects calls in which every processHit made while PLAYING
    happens at a session current time strictly above that of every earlier
    miss sweep, and the beatmap's hit-object ids are pairwise distinct, the
    processed and missed id sets stay disjoint and together never exceed
    `totalNotes`. -/
theorem session_judged_once (bid sid : String) (objs : List HitCircle)
    (cmds : List Cmd)
    (hnd : ((mkBeatmap bid objs).hitObjects.map HitCircle.id).Nodup)
    (hok : traceOk (mkGameSession sid (mkBeatmap bid objs)) none cmds) :
    (runCmds (mkGameSession sid (mkBeatmap bid objs)) cmds).processedHitObjects ∩
      (runCmds (mkGameSession sid (mkBeatmap bid objs)) cmds).missedHitObjects = ∅ ∧
    (runCmds (mkGameSession sid (mkBeatmap bid objs)) cmds).processedHitObjects.card +
      (runCmds (mkGameSession sid (mkBeatmap bid objs)) cmds).missedHitObjects.card
      ≤ (mkBeatmap bid objs).totalNotes := by
  have hinv0 : SessionInv (mkGameSession sid (mkBeatmap bid objs)) none := by
    refine ⟨by simp [mkGameSession], by simp [mkGameSession], by simp [mkGameSession],
      ?_, fun _ => rfl⟩
    intro x hx
    cases hx
  obtain ⟨w', hinvF⟩ := sessionInv_runCmds cmds _ none hnd hinv0 hok
  obtain ⟨hdisj, hprocF, hmissF, _, _⟩ := hinvF
  have hbm : (runCmds (mkGameSession sid (mkBeatmap bid objs)) cmds).beatmap
      = mkBeatmap bid objs := runCmds_beatmap cmds _
  refine ⟨hdisj, ?_⟩
  have hsub : (runCmds (mkGameSession sid (mkBeatmap bid objs)) cmds).processedHitObjects ∪
      (runCmds (mkGameSession sid (mkBeatmap bid objs)) cmds).missedHitObjects ⊆
      ((mkBeatmap bid objs).hitObjects.map HitCircle.id).toFinset := by
    intro a ha
    rcases Finset.mem_union.1 ha with h | h
    · obtain ⟨o, ho, rfl⟩ := hprocF a h
      rw [hbm] at ho
      exact List.mem_toFinset.2 (List.mem_map.2 ⟨o, ho, rfl⟩)
    · obtain ⟨o, ho, rfl⟩ := hmissF a h
      rw [hbm] at ho
      exact List.mem_toFinset.2 (List.mem_map.2 ⟨o, ho, rfl⟩)
  calc (runCmds (mkGameSession sid (mkBeatmap bid objs)) cmds).processedHitObjects.card +
        (runCmds (mkGameSession sid (mkBeatmap bid objs)) cmds).missedHitObjects.card
      = ((runCmds (mkGameSession sid (mkBeatmap bid objs)) cmds).processedHitObjects ∪
        (runCmds (mkGameSession sid (mkBeatmap bid objs)) cmds).missedHitObjects).card :=
        (Finset.card_union_of_disjoint
          (Finset.disjoint_iff_inter_eq_empty.mpr hdisj)).symm
    _ ≤ ((mkBeatmap bid objs).hitObjects.map HitCircle.id).toFinset.card :=
        Finset.card_le_card hsub
    _ ≤ ((mkBeatmap bid objs).hitObjects.map HitCircle.id).length :=
        List.toFinset_card_le _
    _ = (mkBeatmap bid objs).totalNotes := by
        rw [List.length_map]
        exact sortByTime_length objs

/-- Counterexample to C1 as stated: timestamps 0, 300, 300 are non-decreasing,
    yet sweeping misses at current time 300 (which catches the note at 100 =
    300 - 200 exactly) and then processing a hit at the same current time
    (whose ±200ms window still contains that note, since `processHit` never
    consults the missed set) judges the same note twice: the processed and
    missed sets intersect and their sizes sum to 2 > totalNotes = 1. -/
theorem session_sets_counterexample :
    (runCmds (mkGameSession "s" (mkBeatmap "b" [mkHitCircle "a" ⟨100, 100⟩ 100 5]))
        [Cmd.start 0, Cmd.check 300, Cmd.hit ⟨100, 100⟩ 300]).processedHitObjects ∩
      (runCmds (mkGameSession "s" (mkBeatmap "b" [mkHitCircle "a" ⟨100, 100⟩ 100 5]))
        [Cmd.start 0, Cmd.check 300, Cmd.hit ⟨100, 100⟩ 300]).missedHitObjects ≠ ∅ ∧
    (mkBeatmap "b" [mkHitCircle "a" ⟨100, 100⟩ 100 5]).totalNotes <
      (runCmds (mkGameSession "s" (mkBeatmap "b" [mkHitCircle "a" ⟨100, 100⟩ 100 5]))
        [Cmd.start 0, Cmd.check 300, Cmd.hit ⟨100, 100⟩ 300]).processedHitObjects.card +
      (runCmds (mkGameSession "s" (mkBeatmap "b" [mkHitCircle "a" ⟨100, 100⟩ 100 5]))
        [Cmd.start 0, Cmd.check 300, Cmd.hit ⟨100, 100⟩ 300]).missedHitObjects.card := by
  have hb : mkBeatmap "b" [mkHitCircle "a" ⟨100, 100⟩ 100 5] =
      { id := "b", hitObjects := [mkHitCircle "a" ⟨100, 100⟩ 100 5], totalNotes := 1,
        maxScore := 300, totalLength := 3100 } := by
    norm_num [mkBeatmap, sortByTime, insertByTime, mkHitCircle]
  have h1 : stepCmd (mkGameSession "s" (mkBeatmap "b" [mkHitCircle "a" ⟨100, 100⟩ 100 5]))
      (Cmd.start 0) =
      { id := "s", beatmap := mkBeatmap "b" [mkHitCircle "a" ⟨100, 100⟩ 100 5],
        score := mkScore 1, state := .PLAYING, startTime := some 0, pausedAt := none,
        totalPausedTime := 0, processedHitObjects := ∅, missedHitObjects := ∅ } := by
    simp [stepCmd, GameSession.start, mkGameSession, hb]
  have h2 : stepCmd
      { id := "s", beatmap := mkBeatmap "b" [mkHitCircle "a" ⟨100, 100⟩ 100 5],
        score := mkScore 1, state := GameState.PLAYING, startTime := some 0, pausedAt := none,
        totalPausedTime := 0, processedHitObjects := ∅,
        missedHitObjects := (∅ : Finset String) } (Cmd.check 300) =
      { id := "s", beatmap := mkBeatmap "b" [mkHitCircle "a" ⟨100, 100⟩ 100 5],
        score := (mkScore 1).addResult .MISS 0, state := .PLAYING, startTime := some 0,
        pausedAt := none, totalPausedTime := 0, processedHitObjects := ∅,
        missedHitObjects := {"a"} } := by
    norm_num [stepCmd, GameSession.checkForMissedObjects, GameSession.getCurrentTime,
      Beatmap.getHitObjectsInTimeRange, hb, mkHitCircle, List.filter,
      GameSession.missFold]
  have h3 : stepCmd
      { id := "s", beatmap := mkBeatmap "b" [mkHitCircle "a" ⟨100, 100⟩ 100 5],
        score := (mkScore 1).addResult .MISS 0, state := GameState.PLAYING,
        startTime := some 0, pausedAt := none, totalPausedTime := 0,
        processedHitObjects := (∅ : Finset String), missedHitObjects := {"a"} }
      (Cmd.hit ⟨100, 100⟩ 300) =
      { id := "s", beatmap := mkBeatmap "b" [mkHitCircle "a" ⟨100, 100⟩ 100 5],
        score := ((mkScore 1).addResult .MISS 0).addResult .MISS 0, state := .PLAYING,
        startTime := some 0, pausedAt := none, totalPausedTime := 0,
        processedHitObjects := {"a"}, missedHitObjects := {"a"} } := by
    norm_num [stepCmd, GameSession.processHit, GameSession.getCurrentTime,
      Beatmap.getHitObjectsInTimeRange, hb, mkHitCircle, List.filter,
      GameSession.closestTo, HitCircle.evaluate, HitCircle.isPointInside, sqrtLE,
      HitCircle.baseEvaluate, abs_of_nonneg, HitCircle.pointsFor, HitCircle.accuracyFor]
  have hrun : runCmds (mkGameSession "s" (mkBeatmap "b" [mkHitCircle "a" ⟨100, 100⟩ 100 5]))
      [Cmd.start 0, Cmd.check 300, Cmd.hit ⟨100, 100⟩ 300] =
      { id := "s", beatmap := mkBeatmap "b" [mkHitCircle "a" ⟨100, 100⟩ 100 5],
        score := ((mkScore 1).addResult .MISS 0).addResult .MISS 0, state := .PLAYING,
        startTime := some 0, pausedAt := none, totalPausedTime := 0,
        processedHitObjects := {"a"}, missedHitObjects := {"a"} } := by
    simp only [runCmds, List.foldl_cons, List.foldl_nil]
    rw [h1, h2, h3]
  rw [hrun, hb]
  simp

/-- Witness for C1 (amended): a hit at current time 90 followed by a sweep at
    400 — the trace satisfies the strictness condition, the note is judged
    once, and the sets stay disjoint within the note count. -/
theorem session_judged_once_witness :
    (runCmds (mkGameSession "s" (mkBeatmap "b" [mkHitCircle "a" ⟨100, 100⟩ 100 5]))
        [Cmd.start 0, Cmd.hit ⟨100, 100⟩ 90, Cmd.check 400]).processedHitObjects ∩
      (runCmds (mkGameSession "s" (mkBeatmap "b" [mkHitCircle "a" ⟨100, 100⟩ 100 5]))
        [Cmd.start 0, Cmd.hit ⟨100, 100⟩ 90, Cmd.check 400]).missedHitObjects = ∅ ∧
    (runCmds (mkGameSession "s" (mkBeatmap "b" [mkHitCircle "a" ⟨100, 100⟩ 100 5]))
        [Cmd.start 0, Cmd.hit ⟨100, 100⟩ 90, Cmd.check 400]).processedHitObjects.card +
      (runCmds (mkGameSession "s" (mkBeatmap "b" [mkHitCircle "a" ⟨100, 100⟩ 100 5]))
        [Cmd.start 0, Cmd.hit ⟨100, 100⟩ 90, Cmd.check 400]).missedHitObjects.card
      ≤ (mkBeatmap "b" [mkHitCircle "a" ⟨100, 100⟩ 100 5]).totalNotes :=
  session_judged_once "b" "s" [mkHitCircle "a" ⟨100, 100⟩ 100 5]
    [Cmd.start 0, Cmd.hit ⟨100, 100⟩ 90, Cmd.check 400]
    (by simp [mkBeatmap, sortByTime, insertByTime, mkHitCircle])
    (by simp [traceOk, hitOk, wmUpd])

/-- Enough fuel from a ceiling: `a ≤ ⌈a / δ⌉₊ * δ` for positive `δ`. -/
theorem ceil_fuel_bound (a δ : ℚ) (hδ : 0 < δ) : a ≤ (⌈a / δ⌉₊ : ℚ) * δ := by
  have h1 : a / δ ≤ (⌈a / δ⌉₊ : ℚ) := Nat.le_ceil _
  have h2 : a / δ * δ = a := div_mul_cancel₀ a (ne_of_gt hδ)
  nlinarith

/-- A fueled while-loop completes once the fuel covers the distance from the
    measure to the bound, when every iteration advances the measure by at
    least `δ > 0`. -/
theorem fuelLoop_isSome {σ : Type} (cond : σ → Prop) [DecidablePred cond]
    (step : σ → σ) (μ : σ → ℚ) (endT δ : ℚ) (hδ : 0 < δ)
    (hcond : ∀ s, cond s → μ s < endT)
    (hstep : ∀ s, cond s → μ s + δ ≤ μ (step s)) :
    ∀ (fuel : ℕ) (s : σ), endT ≤ μ s + fuel * δ → (fuelLoop cond step fuel s).isSome := by
  intro fuel
  induction fuel with
  | zero =>
    intro s h
    have hnc : ¬ cond s := by
      intro hc
      have := hcond s hc
      push_cast at h
      linarith
    simp [fuelLoop, hnc]
  | succ n ih =>
    intro s h
    by_cases hc : cond s
    · have h2 : endT ≤ μ (step s) + n * δ := by
        have := hstep s hc
        push_cast at h
        push_cast
        linarith
      simpa [fuelLoop, hc] using ih (step s) h2
    · simp [fuelLoop, hc]

/-- As `fuelLoop_isSome`, for a loop whose body can fail: if every iteration
    yields a successor that advances the measure, the loop completes. -/
theorem fuelLoopO_isSome {σ : Type} (cond : σ → Prop) [DecidablePred cond]
    (step : σ → Option σ) (μ : σ → ℚ) (endT δ : ℚ) (hδ : 0 < δ)
    (hcond : ∀ s, cond s → μ s < endT)
    (hstep : ∀ s, cond s → ∃ s', step s = some s' ∧ μ s + δ ≤ μ s') :
    ∀ (fuel : ℕ) (s : σ), endT ≤ μ s + fuel * δ → (fuelLoopO cond step fuel s).isSome := by
  intro fuel
  induction fuel with
  | zero =>
    intro s h
    have hnc : ¬ cond s := by
      intro hc
      have := hcond s hc
      push_cast at h
      linarith
    simp [fuelLoopO, hnc]
  | succ n ih =>
    intro s h
    by_cases hc : cond s
    · obtain ⟨s', hs', hμ⟩ := hstep s hc
      have h2 : endT ≤ μ s' + n * δ := by
        push_cast at h
        push_cast
        linarith
      simpa [fuelLoopO, hc, hs'] using ih s' h2
    · simp [fuelLoopO, hc]

/-- Each standard-factory iteration advances the time by at least `spacing`. -/
theorem stdStep_time (rs : RandSrc) (spacing minDistance maxDistance approachRate : ℚ)
    (hsp : 0 < spacing) (st : PosSt) :
    st.t + spacing ≤ (stdStep rs spacing minDistance maxDistance approachRate st).t := by
  simp only [stdStep]
  split_ifs <;> dsimp only <;> linarith

/-- A triplet note advances the time by exactly the triplet spacing. -/
theorem tripletNote_time (rs : RandSrc) (approachRate tripletSpacing : ℚ) (i : ℕ)
    (st : PosSt) :
    (tripletNote rs approachRate tripletSpacing i st).t = st.t + tripletSpacing := rfl

/-- Each triplet iteration advances the time by at least one beat. -/
theorem tripletStep_time (rs : RandSrc) (approachRate beatDuration : ℚ)
    (hbd : 0 < beatDuration) (st : PosSt) :
    st.t + beatDuration ≤ (tripletStep rs approachRate beatDuration st).t := by
  simp only [tripletStep, tripletNote_time]
  split_ifs <;> linarith

/-- Each stream iteration advances the time by at least `spacing`. -/
theorem streamStep_time (rs : RandSrc) (mo : MathOracle)
    (approachRate spacing angleIncrement centerX centerY radius : ℚ)
    (hsp : 0 < spacing) (st : AngSt) :
    st.t + spacing ≤ (streamStep rs mo approachRate spacing angleIncrement
      centerX centerY radius st).t := by
  simp only [streamStep]
  split_ifs <;> linarith

/-- The burst loop of a stack advances the time by `n` spacings. -/
theorem stackNotes_time (pos : Vec2) (approachRate stackSpacing : ℚ) :
    ∀ (n i : ℕ) (t : ℚ) (acc : List HitCircle),
      (stackNotes pos approachRate stackSpacing n i t acc).1 = t + n * stackSpacing := by
  intro n
  induction n with
  | zero => intro i t acc; simp [stackNotes]
  | succ m ih =>
    intro i t acc
    rw [stackNotes, ih]
    push_cast
    ring

/-- Each stack iteration advances the time by at least one beat (the gap is
    `beatDuration * (1 + r)` with `r ≥ 0`). -/
theorem stackStep_time (rs : RandSrc) (approachRate beatDuration : ℚ)
    (hbd : 0 < beatDuration) (hrs : ∀ n, 0 ≤ rs n ∧ rs n < 1) (st : TimeSt) :
    st.t + beatDuration ≤ (stackStep rs approachRate beatDuration st).t := by
  simp only [stackStep, stackNotes_time]
  have h1 : (0 : ℚ) ≤ ((2 + ⌊rs (generateRandomPosition rs st.k 50).2 * 4⌋).toNat : ℚ)
      * (beatDuration / 4) := by
    apply mul_nonneg
    · positivity
    · positivity
  have h2 : 0 ≤ rs ((generateRandomPosition rs st.k 50).2 + 1) :=
    (hrs ((generateRandomPosition rs st.k 50).2 + 1)).1
  nlinarith

/-- The polyrhythm group loop advances the time by `n` spacings. -/
theorem polyNotes_time (rs : RandSrc) (approachRate rhythmSpacing : ℚ) (basePos : Vec2) :
    ∀ (n i k : ℕ) (t : ℚ) (acc : List HitCircle),
      (polyNotes rs approachRate rhythmSpacing basePos n i k t acc).2.1
        = t + n * rhythmSpacing := by
  intro n
  induction n with
  | zero => intro i k t acc; simp [polyNotes]
  | succ m ih =>
    intro i k t acc
    rw [polyNotes, ih]
    push_cast
    ring

/-- Each polyrhythm iteration advances the time by at least one beat
    (`division` notes at `beatDuration / division` spacing). -/
theorem polyStep_time (rs : RandSrc) (approachRate beatDuration : ℚ)
    (hbd : 0 < beatDuration) (st : TimeSt) :
    st.t + beatDuration ≤ (polyStep rs approachRate beatDuration st).t := by
  simp only [polyStep, polyNotes_time]
  split_ifs <;> push_cast <;> ring_nf <;> linarith

/-- Every entry of the tech subdivision table is positive. -/
theorem divisorAt_pos (i : ℤ) : 0 < divisorAt i := by
  unfold divisorAt
  split_ifs <;> norm_num

/-- The tech vertex loop never moves the time backwards. -/
theorem techNotes_time (rs : RandSrc) (approachRate beatDuration : ℚ)
    (hbd : 0 < beatDuration) :
    ∀ (shape : List Vec2) (i k : ℕ) (t : ℚ) (last : Vec2) (acc : List HitCircle),
      t ≤ (techNotes rs approachRate beatDuration shape i k t last acc).1 := by
  intro shape
  induction shape with
  | nil => intro i k t last acc; simp [techNotes]
  | cons v rest ih =>
    intro i k t last acc
    rw [techNotes]
    refine le_trans ?_ (ih _ _ _ _ _)
    have hpos : 0 < beatDuration / divisorAt ⌊rs k * 5⌋ :=
      div_pos hbd (divisorAt_pos _)
    linarith

/-- Each tech iteration advances the time by at least half a beat. -/
theorem techStep_time (rs : RandSrc) (mo : MathOracle)
    (approachRate beatDuration : ℚ) (hbd : 0 < beatDuration) (st : PosSt) :
    st.t + beatDuration / 2 ≤ (techStep rs mo approachRate beatDuration st).t := by
  simp only [techStep]
  have h := techNotes_time rs approachRate beatDuration hbd
  split_ifs <;>
    · refine add_le_add_right ?_ _
      exact h _ _ _ _ _ _

/-- The triplet generator completes with fuel covering a sixth-beat advance. -/
theorem generateTripletPattern_isSome (rs : RandSrc) (fuel : ℕ)
    (startTime duration approachRate : ℚ) (difficulty : BeatmapDifficulty) (k : ℕ)
    (hbd : 0 < 60000 / difficulty.bpm)
    (hfuel : duration ≤ (fuel : ℚ) * (60000 / difficulty.bpm / 6)) :
    (generateTripletPattern rs fuel startTime duration approachRate difficulty k).isSome := by
  simp only [generateTripletPattern, Option.isSome_map']
  refine fuelLoop_isSome _ _ PosSt.t (startTime + duration) (60000 / difficulty.bpm / 6)
    (by positivity) (fun s hc => hc)
    (fun s _ => ?_) fuel _ ?_
  · have := tripletStep_time rs approachRate (60000 / difficulty.bpm) hbd s
    linarith
  · dsimp only
    linarith

/-- The stream generator completes with fuel covering a sixth-beat advance
    (its spacing is a quarter or a sixth of a beat). -/
theorem generateStreamPattern_isSome (rs : RandSrc) (mo : MathOracle) (fuel : ℕ)
    (startTime duration approachRate : ℚ) (difficulty : BeatmapDifficulty) (k : ℕ)
    (hbd : 0 < 60000 / difficulty.bpm)
    (hfuel : duration ≤ (fuel : ℚ) * (60000 / difficulty.bpm / 6)) :
    (generateStreamPattern rs mo fuel startTime duration approachRate difficulty k).isSome := by
  have hsp : 60000 / difficulty.bpm / 6
      ≤ 60000 / difficulty.bpm / (if 7 < difficulty.overallDifficulty then (6 : ℚ) else 4) := by
    split_ifs <;> linarith
  simp only [generateStreamPattern, Option.isSome_map']
  refine fuelLoop_isSome _ _ AngSt.t (startTime + duration) (60000 / difficulty.bpm / 6)
    (by positivity) (fun s hc => hc)
    (fun s _ => ?_) fuel _ ?_
  · have := streamStep_time rs mo approachRate
      (60000 / difficulty.bpm / (if 7 < difficulty.overallDifficulty then (6 : ℚ) else 4))
      (mo.piO * 2 / (duration / (60000 / difficulty.bpm /
        (if 7 < difficulty.overallDifficulty then (6 : ℚ) else 4)) * 0.7))
      (512 / 2) (384 / 2) 150 (by split_ifs <;> positivity) s
    linarith
  · dsimp only
    linarith

/-- The stack generator completes with fuel covering a sixth-beat advance. -/
theorem generateStackPattern_isSome (rs : RandSrc) (fuel : ℕ)
    (startTime duration approachRate : ℚ) (difficulty : BeatmapDifficulty) (k : ℕ)
    (hbd : 0 < 60000 / difficulty.bpm) (hrs : ∀ n, 0 ≤ rs n ∧ rs n < 1)
    (hfuel : duration ≤ (fuel : ℚ) * (60000 / difficulty.bpm / 6)) :
    (generateStackPattern rs fuel startTime duration approachRate difficulty k).isSome := by
  simp only [generateStackPattern, Option.isSome_map']
  refine fuelLoop_isSome _ _ TimeSt.t (startTime + duration) (60000 / difficulty.bpm / 6)
    (by positivity) (fun s hc => hc)
    (fun s _ => ?_) fuel _ ?_
  · have := stackStep_time rs approachRate (60000 / difficulty.bpm) hbd hrs s
    linarith
  · dsimp only
    linarith

/-- The polyrhythm generator completes with fuel covering a sixth-beat
    advance. -/
theorem generatePolyrhythmPattern_isSome (rs : RandSrc) (fuel : ℕ)
    (startTime duration approachRate : ℚ) (difficulty : BeatmapDifficulty) (k : ℕ)
    (hbd : 0 < 60000 / difficulty.bpm)
    (hfuel : duration ≤ (fuel : ℚ) * (60000 / difficulty.bpm / 6)) :
    (generatePolyrhythmPattern rs fuel startTime duration approachRate difficulty k).isSome := by
  simp only [generatePolyrhythmPattern, Option.isSome_map']
  refine fuelLoop_isSome _ _ TimeSt.t (startTime + duration) (60000 / difficulty.bpm / 6)
    (by positivity) (fun s hc => hc)
    (fun s _ => ?_) fuel _ ?_
  · have := polyStep_time rs approachRate (60000 / difficulty.bpm) hbd s
    linarith
  · dsimp only
    linarith

/-- The tech generator completes with fuel covering a sixth-beat advance. -/
theorem generateTechPattern_isSome (rs : RandSrc) (mo : MathOracle) (fuel : ℕ)
    (startTime duration approachRate : ℚ) (difficulty : BeatmapDifficulty) (k : ℕ)
    (hbd : 0 < 60000 / difficulty.bpm)
    (hfuel : duration ≤ (fuel : ℚ) * (60000 / difficulty.bpm / 6)) :
    (generateTechPattern rs mo fuel startTime duration approachRate difficulty k).isSome := by
  simp only [generateTechPattern, Option.isSome_map']
  refine fuelLoop_isSome _ _ PosSt.t (startTime + duration) (60000 / difficulty.bpm / 6)
    (by positivity) (fun s hc => hc)
    (fun s _ => ?_) fuel _ ?_
  · have := techStep_time rs mo approachRate (60000 / difficulty.bpm) hbd s
    linarith
  · dsimp only
    linarith

/-- Whatever pattern index is drawn, the dispatched generator completes. -/
theorem generatePattern_isSome (rs : RandSrc) (mo : MathOracle) (fuel : ℕ)
    (patternIdx : ℤ) (startTime duration approachRate : ℚ)
    (difficulty : BeatmapDifficulty) (k : ℕ)
    (hbd : 0 < 60000 / difficulty.bpm) (hrs : ∀ n, 0 ≤ rs n ∧ rs n < 1)
    (hfuel : duration ≤ (fuel : ℚ) * (60000 / difficulty.bpm / 6)) :
    (generatePattern rs mo fuel patternIdx startTime duration approachRate
      difficulty k).isSome := by
  unfold generatePattern
  split_ifs
  · exact generateTripletPattern_isSome rs fuel _ _ _ _ _ hbd hfuel
  · exact generateStreamPattern_isSome rs mo fuel _ _ _ _ _ hbd hfuel
  · exact generateStackPattern_isSome rs fuel _ _ _ _ _ hbd hrs hfuel
  · exact generatePolyrhythmPattern_isSome rs fuel _ _ _ _ _ hbd hfuel
  · exact generateTechPattern_isSome rs mo fuel _ _ _ _ _ hbd hfuel

/-- One technical block always succeeds (given inner fuel) and advances the
    time by at least the 5000ms block length. -/
theorem techOuterStep_advances (rs : RandSrc) (mo : MathOracle) (innerFuel : ℕ)
    (approachRate : ℚ) (difficulty : BeatmapDifficulty)
    (hbd : 0 < 60000 / difficulty.bpm) (hrs : ∀ n, 0 ≤ rs n ∧ rs n < 1)
    (hfuel : (5000 : ℚ) ≤ (innerFuel : ℚ) * (60000 / difficulty.bpm / 6)) (st : TimeSt) :
    ∃ st', techOuterStep rs mo innerFuel approachRate difficulty st = some st' ∧
      st.t + 5000 ≤ st'.t := by
  have hgp := generatePattern_isSome rs mo innerFuel ⌊rs st.k * 5⌋ st.t 5000
    approachRate difficulty (st.k + 1) hbd hrs hfuel
  obtain ⟨res, hgp'⟩ := Option.isSome_iff_exists.1 hgp
  obtain ⟨k', objs⟩ := res
  refine ⟨⟨if rs k' < 0.3 then st.t + 5000 + 60000 / difficulty.bpm * 2
      else st.t + 5000, k' + 1, st.acc ++ objs⟩, ?_, ?_⟩
  · simp only [techOuterStep, hgp']
  · dsimp only
    split_ifs <;> linarith

/-- The technical factory's outer loop completes given block-level fuel and
    inner pattern fuel. -/
theorem technicalGenerateHitObjects_isSome (rs : RandSrc) (mo : MathOracle)
    (outerFuel innerFuel : ℕ) (params : BeatmapCreationParams)
    (difficulty : BeatmapDifficulty)
    (hbd : 0 < 60000 / difficulty.bpm) (hrs : ∀ n, 0 ≤ rs n ∧ rs n < 1)
    (hinner : (5000 : ℚ) ≤ (innerFuel : ℚ) * (60000 / difficulty.bpm / 6))
    (houter : params.duration - 1000 ≤ 1000 + (outerFuel : ℚ) * 5000) :
    (technicalGenerateHitObjects rs mo outerFuel innerFuel params difficulty).isSome := by
  simp only [technicalGenerateHitObjects, Option.isSome_map']
  refine fuelLoopO_isSome _ _ TimeSt.t (params.duration - 1000) 5000 (by norm_num)
    (fun s hc => hc)
    (fun s _ => techOuterStep_advances rs mo innerFuel difficulty.approachRate
      difficulty hbd hrs hinner s) outerFuel _ ?_
  dsimp only
  linarith

/-- The standard factory's loop advances by at least the 150ms floor. -/
theorem stdStep_time150 (rs : RandSrc) (x minDistance maxDistance approachRate : ℚ)
    (st : PosSt) :
    st.t + 150 ≤ (stdStep rs (max 150 x) minDistance maxDistance approachRate st).t := by
  have h150 : (150 : ℚ) ≤ max 150 x := le_max_left _ _
  have := stdStep_time rs (max 150 x) minDistance maxDistance approachRate
    (by linarith) st
  linarith

/-- The standard factory completes given fuel covering 150ms advances. -/
theorem standardGenerateHitObjects_isSome (rs : RandSrc) (fuel : ℕ)
    (params : BeatmapCreationParams) (difficulty : BeatmapDifficulty)
    (hfuel : params.duration - 1000 ≤ 1000 + (fuel : ℚ) * 150) :
    (standardGenerateHitObjects rs fuel params difficulty).isSome := by
  simp only [standardGenerateHitObjects, Option.isSome_map']
  refine fuelLoop_isSome _ _ PosSt.t (params.duration - 1000) 150 (by norm_num)
    (fun s hc => hc)
    (fun s _ => stdStep_time150 rs _ _ _ _ s) fuel _ ?_
  dsimp only
  linarith

/-- C9: generation always terminates — for positive duration and bpm and any
    stream of random values in [0, 1), both factories' `generateHitObjects`
    complete within the explicitly computed fuel (the position search is
    bounded at 10 attempts with a fallback, and every loop iteration
    advances the current time by a positive amount). -/
theorem generation_terminates (rs : RandSrc) (mo : MathOracle)
    (params : BeatmapCreationParams)
    (hdur : 0 < params.duration)
    (hbpm : 0 < params.bpm.getD 120)
    (hrs : ∀ n, 0 ≤ rs n ∧ rs n < 1) :
    (standardGenerateHitObjects rs (stdFuel params) params
      (BaseBeatmapFactory.createDifficulty (params.difficulty.getD 5)
        (params.bpm.getD 120))).isSome ∧
    (technicalGenerateHitObjects rs mo (techOuterFuel params)
      (techInnerFuel (BaseBeatmapFactory.createDifficulty (params.difficulty.getD 5)
        (params.bpm.getD 120)))
      params
      (BaseBeatmapFactory.createDifficulty (params.difficulty.getD 5)
        (params.bpm.getD 120))).isSome := by
  have hbpmeq : (BaseBeatmapFactory.createDifficulty (params.difficulty.getD 5)
      (params.bpm.getD 120)).bpm = params.bpm.getD 120 := rfl
  have hbd : 0 < 60000 / (BaseBeatmapFactory.createDifficulty (params.difficulty.getD 5)
      (params.bpm.getD 120)).bpm := by
    rw [hbpmeq]
    positivity
  constructor
  · apply standardGenerateHitObjects_isSome
    have := ceil_fuel_bound (params.duration - 1000 - 1000) 150 (by norm_num)
    unfold stdFuel
    linarith
  · apply technicalGenerateHitObjects_isSome _ _ _ _ _ _ hbd hrs
    · have := ceil_fuel_bound 5000
        (60000 / (BaseBeatmapFactory.createDifficulty (params.difficulty.getD 5)
          (params.bpm.getD 120)).bpm / 6) (by positivity)
      unfold techInnerFuel
      linarith
    · have := ceil_fuel_bound (params.duration - 1000 - 1000) 5000 (by norm_num)
      unfold techOuterFuel
      linarith

/-- Witness for C9: a concrete 1500ms, 120bpm request with a constant random
    stream — both generators complete within the computed fuel. -/
theorem generation_terminates_witness :
    (standardGenerateHitObjects (fun _ => 1 / 2)
      (stdFuel { difficulty := some 5, duration := 1500, bpm := some 120 })
      { difficulty := some 5, duration := 1500, bpm := some 120 }
      (BaseBeatmapFactory.createDifficulty
        ((({ difficulty := some 5, duration := 1500, bpm := some 120 } :
          BeatmapCreationParams)).difficulty.getD 5)
        ((({ difficulty := some 5, duration := 1500, bpm := some 120 } :
          BeatmapCreationParams)).bpm.getD 120))).isSome ∧
    (technicalGenerateHitObjects (fun _ => 1 / 2) ⟨fun _ => 0, fun _ => 0, 3⟩
      (techOuterFuel { difficulty := some 5, duration := 1500, bpm := some 120 })
      (techInnerFuel (BaseBeatmapFactory.createDifficulty
        ((({ difficulty := some 5, duration := 1500, bpm := some 120 } :
          BeatmapCreationParams)).difficulty.getD 5)
        ((({ difficulty := some 5, duration := 1500, bpm := some 120 } :
          BeatmapCreationParams)).bpm.getD 120)))
      { difficulty := some 5, duration := 1500, bpm := some 120 }
      (BaseBeatmapFactory.createDifficulty
        ((({ difficulty := some 5, duration := 1500, bpm := some 120 } :
          BeatmapCreationParams)).difficulty.getD 5)
        ((({ difficulty := some 5, duration := 1500, bpm := some 120 } :
          BeatmapCreationParams)).bpm.getD 120))).isSome :=
  generation_terminates (fun _ => 1 / 2) ⟨fun _ => 0, fun _ => 0, 3⟩
    { difficulty := some 5, duration := 1500, bpm := some 120 }
    (by norm_num) (by norm_num [Option.getD]) (fun n => ⟨by norm_num, by norm_num⟩)
